import Mathlib

/-!
# Restaurant finder (Arduino firmware): record store, ranking pass, navigator

A shallow embedding of `restaurant.cpp` and of the navigation code of
`a2-2.cpp`, followed by theorems about the embedded functions.

Conventions of the embedding.

* C `int` values are mathematical integers (`Int`); `/` and `%` of C are
  `Int.tdiv` and `Int.tmod` (truncation towards zero).  Where the source
  fixes a width (`uint32_t`, `int16_t`) the reduction is written out.
* A pointer to `RestDist` together with an element count `n` is the list of
  the `n` entries it designates; an entry access outside the list is an
  error (`none`).
* Loops whose termination is not structural carry a fuel counter; running out
  of fuel is `none` as well.
* Constants, types and functions of the headers `restaurant.h` and `yegmap.h`
  are not part of the sources at hand; they are parameters or are introduced
  with a comment saying where their shape comes from.
-/

namespace RestaurantFinder

set_option maxRecDepth 20000

/-! ## Record store (`restaurant.cpp`, `getRestaurant`) -/

/-- A catalogue record, `struct restaurant` of restaurant.h.  The header is not
among the sources; the fields are the ones the code reads (`lat`, `lon`,
`name`) and the rating of the data model. -/
structure restaurant where
  lat : Int
  lon : Int
  rating : Int
  name : String
deriving DecidableEq, Repr, Inhabited

/-- First block of the catalogue on the card.  Declared in restaurant.h; the
value is the one given by the comment in `setup()` ("all blocks will start at
REST_START_BLOCK, which is 4000000"). -/
def REST_START_BLOCK : Int := 4000000

/-- The one-line cache, `struct RestCache`: the eight records of a block
(`block[i%8]` is the only access) and the number of the block they came
from. -/
structure RestCache where
  block : Fin 8 → restaurant
  cachedBlock : Nat

/-- The block device.  `blocks b` is the content of block `b`; `faults` lists
the outcomes of the coming `readBlock` attempts in order (`false` is a failed
attempt), and once the list is used up every attempt succeeds.  A card that
fails for ever, on which `getRestaurant` spins for ever, is not represented. -/
structure Sd2Card where
  blocks : Nat → Fin 8 → restaurant
  faults : List Bool

/-- The loop `while (!card->readBlock(block, cache->block)) { ... }`:
the buffer after the loop, the outcomes left over, and the number of
`readBlock` calls that were issued. -/
def readUntilDone (blocks : Nat → Fin 8 → restaurant) (block : Nat) :
    List Bool → (Fin 8 → restaurant) → (Fin 8 → restaurant) × List Bool × Nat
  | [], _ => (blocks block, [], 1)
  | true :: rest, _ => (blocks block, rest, 1)
  | false :: rest, dst =>
    let r := readUntilDone blocks block rest dst
    (r.1, r.2.1, r.2.2 + 1)

/-- The local `uint32_t block = REST_START_BLOCK + i/8` of `getRestaurant`. -/
def blockNumber (i : Int) : Nat :=
  ((REST_START_BLOCK + Int.tdiv i 8) % 4294967296).toNat

/-- What one call of `getRestaurant` leaves behind: the record copied to
`*ptr`, the card, the cache, and how many block reads the call issued. -/
structure Fetch where
  record : restaurant
  card : Sd2Card
  cache : RestCache
  reads : Nat

/-- Source function `getRestaurant(ptr, i, card, cache)`.  A negative `i % 8` indexes in front
of `cache->block` and is an error. -/
def getRestaurant (i : Int) (card : Sd2Card) (cache : RestCache) : Option Fetch :=
  let block := blockNumber i
  let st : Sd2Card × RestCache × Nat :=
    if block ≠ cache.cachedBlock then
      let r := readUntilDone card.blocks block card.faults cache.block
      ({ card with faults := r.2.1 }, { block := r.1, cachedBlock := block }, r.2.2)
    else (card, cache, 0)
  let slot := Int.tmod i 8
  if 0 ≤ slot then
    some ⟨st.2.1.block (Fin.ofNat slot.toNat), st.1, st.2.1, st.2.2⟩
  else none

/-- A sequence of `getRestaurant` calls, each one working on the card and the
cache the previous one left: the records returned and the reads issued, call
by call. -/
def fetchSequence : List Int → Sd2Card → RestCache →
    Option (List (restaurant × Nat) × Sd2Card × RestCache)
  | [], card, cache => some ([], card, cache)
  | i :: rest, card, cache =>
    match getRestaurant i card cache with
    | none => none
    | some f =>
      match fetchSequence rest f.card f.cache with
      | none => none
      | some (rs, card2, cache2) => some ((f.record, f.reads) :: rs, card2, cache2)

/-- The record stored at index `i` of the catalogue on the card: slot `i % 8`
of block `REST_START_BLOCK + i / 8`. -/
def storedRecord (card : Sd2Card) (i : Int) : restaurant :=
  card.blocks (REST_START_BLOCK + i / 8).toNat (Fin.ofNat (i % 8).toNat)

/-- The cache line is either the start-up sentinel or a true copy of the block
it names. -/
def CacheValid (card : Sd2Card) (cache : RestCache) : Prop :=
  cache.cachedBlock ≠ 0 → cache.block = card.blocks cache.cachedBlock


/-- Every pending `readBlock` attempt of the card succeeds. -/
def Sd2Card.Reliable (card : Sd2Card) : Prop :=
  ∀ b ∈ card.faults, b = true

instance (card : Sd2Card) : Decidable card.Reliable := by
  unfold Sd2Card.Reliable
  infer_instance

/-- A sample card: the record at index `i` has latitude `i`, and the first
read attempt fails. -/
def sampleCard : Sd2Card where
  blocks := fun b s => ⟨8 * ((b : Int) - 4000000) + (s.val : Int), 0, 3, ""⟩
  faults := [false]

/-- A sample card all of whose read attempts succeed. -/
def goodCard : Sd2Card where
  blocks := fun b s => ⟨8 * ((b : Int) - 4000000) + (s.val : Int), 0, 3, ""⟩
  faults := []

/-- The cache as `setup()` leaves it: sentinel block number 0, buffer not yet
filled in. -/
def startupCache : RestCache where
  block := fun _ => default
  cachedBlock := 0

/-! ## Ranking pass (`restaurant.cpp`) -/

/-- A candidate, `struct RestDist` of restaurant.h: a catalogue index and the
distance computed for it.  The header is not among the sources; both fields
hold the integer that the code stores in them. -/
structure RestDist where
  index : Int
  dist : Int
deriving DecidableEq, Repr, Inhabited

/-- The read `restaurants[i]`; an index outside the array is an error. -/
def getAt (restaurants : List RestDist) (i : Int) : Option RestDist :=
  if 0 ≤ i then restaurants[i.toNat]? else none

/-- The write `restaurants[i] = v`; an index outside the array is an error. -/
def setAt (restaurants : List RestDist) (i : Int) (v : RestDist) : Option (List RestDist) :=
  if 0 ≤ i ∧ i < restaurants.length then some (restaurants.set i.toNat v) else none

/-- Source function `swap(restaurants[i], restaurants[j])`: `tmp = r1; r1 = r2; r2 = tmp`. -/
def swap (restaurants : List RestDist) (i j : Int) : Option (List RestDist) :=
  match getAt restaurants i with
  | none => none
  | some tmp =>
    match getAt restaurants j with
    | none => none
    | some r2 =>
      match setAt restaurants i r2 with
      | none => none
      | some a1 => setAt a1 j tmp

/-- The `while (lo <= hi)` loop of `pivot`, one iteration per unit of fuel:
the array and `lo` when the loop is left. -/
def pivotLoop (n : Int) : Nat → List RestDist → Int → Int → Option (List RestDist × Int)
  | 0, _, _, _ => none
  | fuel + 1, restaurants, lo, hi =>
    if lo ≤ hi then
      match getAt restaurants hi, getAt restaurants (n - 1) with
      | some rhi, some rlast =>
        if rhi.dist > rlast.dist then pivotLoop n fuel restaurants lo (hi - 1)
        else
          match getAt restaurants lo with
          | none => none
          | some rlo =>
            if rlo.dist ≤ rlast.dist then pivotLoop n fuel restaurants (lo + 1) hi
            else
              match swap restaurants lo hi with
              | none => none
              | some a1 => pivotLoop n fuel a1 lo hi
      | _, _ => none
    else some (restaurants, lo)

/-- Source function `pivot(restaurants, n, pi)`: the array afterwards and the returned
position.  The loop gets `2 * n + 1` units of fuel. -/
def pivot (restaurants : List RestDist) (n pi : Int) : Option (List RestDist × Int) :=
  match swap restaurants pi (n - 1) with
  | none => none
  | some a1 =>
    match pivotLoop n (2 * n.toNat + 1) a1 0 (n - 2) with
    | none => none
    | some (a2, lo) =>
      match swap a2 lo (n - 1) with
      | none => none
      | some a3 => some (a3, lo)

/-- Source function `qsort(restaurants, n)` with a bound on the recursion depth.  The pointer
`restaurants + (newPi + 1)` is the array without its first `newPi + 1`
entries. -/
def qsortFuel : Nat → List RestDist → Int → Option (List RestDist)
  | 0, _, _ => none
  | fuel + 1, restaurants, n =>
    if n < 1 then some restaurants
    else
      let pi := Int.tdiv n 2
      match pivot restaurants n pi with
      | none => none
      | some (a1, newPi) =>
        match qsortFuel fuel a1 newPi with
        | none => none
        | some a2 =>
          match qsortFuel fuel (a2.drop (newPi + 1).toNat) (n - (newPi + 1)) with
          | none => none
          | some tail => some (a2.take (newPi + 1).toNat ++ tail)

/-- Source function `qsort(restaurants, n)`; recursion depth `n + 1` is always enough. -/
def qsort (restaurants : List RestDist) (n : Int) : Option (List RestDist) :=
  qsortFuel (n.toNat + 1) restaurants n

/-- Reduction of an integer to the range of `int16_t`, and of `int` on the AVR
target (two's complement). -/
def wrap16 (x : Int) : Int :=
  (x + 32768) % 65536 - 32768

/-- The Arduino macro `abs(x)`, `((x)>0?(x):-(x))`. -/
def abs (x : Int) : Int :=
  if x > 0 then x else -x

/-- Source function `manhattan(x1, y1, x2, y2)`, computed in 16-bit `int`. -/
def manhattan (x1 y1 x2 y2 : Int) : Int :=
  wrap16 (wrap16 (abs (wrap16 (x1 - x2))) + wrap16 (abs (wrap16 (y1 - y2))))

/-- The view, `struct MapView` of restaurant.h (not among the sources; the
four fields are the ones the code uses). -/
structure MapView where
  mapX : Int
  mapY : Int
  cursorX : Int
  cursorY : Int
deriving DecidableEq, Repr, Inhabited

/-- The `for` loop of `getAndSortRestaurants`, with `k` iterations to go and
loop variable `i`.  `lon_to_x` and `lat_to_y` are the projection functions of
yegmap.h. -/
def fillRestaurants (lon_to_x lat_to_y : Int → Int) (mv : MapView) :
    Nat → Int → List RestDist → Sd2Card → RestCache →
      Option (List RestDist × Sd2Card × RestCache)
  | 0, _, restaurants, card, cache => some (restaurants, card, cache)
  | k + 1, i, restaurants, card, cache =>
    match getRestaurant i card cache with
    | none => none
    | some f =>
      match setAt restaurants i
          ⟨i, manhattan (wrap16 (lat_to_y f.record.lat)) (wrap16 (lon_to_x f.record.lon))
            (wrap16 (mv.mapY + mv.cursorY)) (wrap16 (mv.mapX + mv.cursorX))⟩ with
      | none => none
      | some a1 => fillRestaurants lon_to_x lat_to_y mv k (i + 1) a1 f.card f.cache

/-- Source function `getAndSortRestaurants(mv, restaurants, card, cache)` of restaurant.cpp,
for a catalogue of `NUM_RESTAURANTS` records. -/
def getAndSortRestaurants (lon_to_x lat_to_y : Int → Int) (NUM_RESTAURANTS : Nat)
    (mv : MapView) (restaurants : List RestDist) (card : Sd2Card) (cache : RestCache) :
    Option (List RestDist × Sd2Card × RestCache) :=
  match fillRestaurants lon_to_x lat_to_y mv NUM_RESTAURANTS 0 restaurants card cache with
  | none => none
  | some (a1, card1, cache1) =>
    match qsort a1 NUM_RESTAURANTS with
    | none => none
    | some a2 => some (a2, card1, cache1)

/-! ## Navigator (`a2-2.cpp`) -/

def TFT_WIDTH : Int := 320

def TFT_HEIGHT : Int := 240

def RATING_SIZE : Int := 48

def DISP_WIDTH : Int := TFT_WIDTH - RATING_SIZE

def DISP_HEIGHT : Int := TFT_HEIGHT

def buttonRadius : Int := 20

def JOY_DEADZONE : Int := 64

def JOY_CENTRE : Int := 512

def JOY_STEPS_PER_PIXEL : Int := 64

def CURSOR_SIZE : Int := 9

def REST_DISP_NUM : Int := 30

/-- The level `LOW` of `digitalRead`. -/
def LOW : Int := 0

/-- The Arduino macro `constrain(amt, low, high)`,
`((amt)<(low)?(low):((amt)>(high)?(high):(amt)))`. -/
def constrain (amt low high : Int) : Int :=
  if amt < low then low else if amt > high then high else amt

/-- The global variables of a2-2.cpp that the navigation code reads and
writes.  The display is represented by `printed`, the arguments of the
`printRestaurant` calls made so far (oldest first); `lookedUp` lists the
positions `k` of the reads `restaurants[k]` made by the click branch of
`scrollingMenu`. -/
structure NavState where
  selectedRest : Int
  mode : Int
  previousRatingSelection : Int
  pageNum : Int
  numOfRestaurants : Int
  buttonCoords : List (Int × Int)
  curView : MapView
  preView : MapView
  printed : List Int
  lookedUp : List Int
deriving DecidableEq, Repr, Inhabited

/-- Source function `beginMode0()`: fills in `buttonCoords` and sets `mode = 0`; the drawing
calls leave the state alone. -/
def beginMode0 (s : NavState) : NavState :=
  { s with
    buttonCoords := (List.range 5).map fun i =>
      (TFT_WIDTH - Int.tdiv RATING_SIZE 2, buttonRadius + (8 + buttonRadius * 2) * (i : Int))
    mode := 0 }

/-- Source function `setup()`, for a map of `MAPWIDTH` by `MAPHEIGHT` pixels (constants of
yegmap.h).  Globals without an initialiser start at zero. -/
def setup (MAPWIDTH MAPHEIGHT : Int) : NavState :=
  beginMode0
    { selectedRest := 0
      mode := 0
      previousRatingSelection := 4
      pageNum := 0
      numOfRestaurants := 0
      buttonCoords := List.replicate 5 (0, 0)
      curView :=
        { cursorX := Int.tdiv DISP_WIDTH 2
          cursorY := Int.tdiv DISP_HEIGHT 2
          mapX := Int.tdiv (Int.tdiv MAPWIDTH DISP_WIDTH) 2 * DISP_WIDTH
          mapY := Int.tdiv (Int.tdiv MAPHEIGHT DISP_HEIGHT) 2 * DISP_HEIGHT }
      preView := { mapX := 0, mapY := 0, cursorX := 0, cursorY := 0 }
      printed := []
      lookedUp := [] }

/-- Source function `printRestaurant(i)`: reads `restaurants[i]`, fetches that record and
draws its name. -/
def printRestaurant (i : Int) (s : NavState) : NavState :=
  { s with printed := s.printed ++ [i] }

/-- Source function `beginMode1()`.  The five-argument `getAndSortRestaurants` it calls is not
among the sources; `rank view minRating` stands for the count that call
returns. -/
def beginMode1 (rank : MapView → Int → Int) (s : NavState) : NavState :=
  let s1 := { s with numOfRestaurants := rank s.curView (5 - s.previousRatingSelection) }
  let s2 := { s1 with selectedRest := 0 }
  let s3 := (List.range REST_DISP_NUM.toNat).foldl
    (fun (st : NavState) (i : Nat) => printRestaurant (i : Int) st) s2
  { s3 with mode := 1 }

/-- Source function `checkRedrawMap()`, as a function on `curView`. -/
def checkRedrawMap (MAPWIDTH MAPHEIGHT : Int) (cur : MapView) : MapView :=
  let r1 : MapView × Bool :=
    if cur.cursorX = DISP_WIDTH - Int.tdiv CURSOR_SIZE 2 - 1 ∧ cur.mapX ≠ MAPWIDTH - DISP_WIDTH then
      ({ cur with mapX := cur.mapX + DISP_WIDTH, cursorX := Int.tdiv DISP_WIDTH 2 }, true)
    else if cur.cursorX = Int.tdiv CURSOR_SIZE 2 ∧ cur.mapX ≠ 0 then
      ({ cur with mapX := cur.mapX - DISP_WIDTH, cursorX := Int.tdiv DISP_WIDTH 2 }, true)
    else (cur, false)
  let r2 : MapView × Bool :=
    if r1.1.cursorY = DISP_HEIGHT - Int.tdiv CURSOR_SIZE 2 - 1 ∧
        r1.1.mapY ≠ MAPHEIGHT - DISP_HEIGHT then
      ({ r1.1 with mapY := r1.1.mapY + DISP_HEIGHT, cursorY := Int.tdiv DISP_HEIGHT 2 }, true)
    else if r1.1.cursorY = Int.tdiv CURSOR_SIZE 2 ∧ r1.1.mapY ≠ 0 then
      ({ r1.1 with mapY := r1.1.mapY - DISP_HEIGHT, cursorY := Int.tdiv DISP_HEIGHT 2 }, true)
    else r1
  if r2.2 then
    { r2.1 with
      mapX := constrain r2.1.mapX 0 (MAPWIDTH - DISP_WIDTH)
      mapY := constrain r2.1.mapY 0 (MAPHEIGHT - DISP_HEIGHT) }
  else r2.1

/-- The part of `scrollingMap()` in front of the button test: cursor move,
`checkRedrawMap`, and `preView = curView`.  `v` and `h` are the two
`analogRead` values. -/
def moveCursorStep (MAPWIDTH MAPHEIGHT : Int) (v h : Int) (s : NavState) : NavState :=
  let c1 : MapView × Bool :=
    if abs (v - JOY_CENTRE) > JOY_DEADZONE then
      let delta := Int.tdiv (v - JOY_CENTRE) JOY_STEPS_PER_PIXEL
      let y := constrain (s.curView.cursorY + delta) (Int.tdiv CURSOR_SIZE 2)
        (DISP_HEIGHT - Int.tdiv CURSOR_SIZE 2 - 1)
      ({ s.curView with cursorY := y }, decide (y ≠ s.preView.cursorY))
    else (s.curView, false)
  let c2 : MapView × Bool :=
    if abs (h - JOY_CENTRE) > JOY_DEADZONE then
      let delta := Int.tdiv (-(h - JOY_CENTRE)) JOY_STEPS_PER_PIXEL
      let x := constrain (c1.1.cursorX + delta) (Int.tdiv CURSOR_SIZE 2)
        (DISP_WIDTH - Int.tdiv CURSOR_SIZE 2 - 1)
      ({ c1.1 with cursorX := x }, c1.2 || decide (x ≠ s.preView.cursorX))
    else c1
  let cur := if c2.2 then checkRedrawMap MAPWIDTH MAPHEIGHT c2.1 else c2.1
  { s with curView := cur, preView := cur }

/-- Source function `scrollingMap()`; `invSelect` is the `digitalRead(JOY_SEL)` value.  The
wait for the release of the button changes nothing. -/
def scrollingMap (rank : MapView → Int → Int) (MAPWIDTH MAPHEIGHT : Int)
    (v h invSelect : Int) (s : NavState) : NavState :=
  let s1 := moveCursorStep MAPWIDTH MAPHEIGHT v h s
  if invSelect = LOW then { beginMode1 rank s1 with mode := 1 } else s1

/-- The `for` loop shared by `loadNextPage()` and `loadPreviousPage()`. -/
def printPage (s : NavState) : NavState :=
  (List.range REST_DISP_NUM.toNat).foldl
    (fun (st : NavState) (k : Nat) =>
      let i := REST_DISP_NUM * s.pageNum + (k : Int)
      if i < st.numOfRestaurants then printRestaurant i st else st)
    s

def loadNextPage (s : NavState) : NavState :=
  printPage { s with pageNum := s.pageNum + 1 }

def loadPreviousPage (s : NavState) : NavState :=
  printPage { s with pageNum := s.pageNum - 1 }

/-- The joystick test of `scrollingMenu()`: `++selectedRest`, `--selectedRest`
or nothing.  `v` is the `analogRead` value. -/
def nudgeSelection (v : Int) (s : NavState) : NavState :=
  if v > JOY_CENTRE + JOY_DEADZONE then { s with selectedRest := s.selectedRest + 1 }
  else if v < JOY_CENTRE - JOY_DEADZONE then { s with selectedRest := s.selectedRest - 1 }
  else s

/-- The page test of `scrollingMenu()`. -/
def turnPage (s : NavState) : NavState :=
  if s.selectedRest = REST_DISP_NUM * (s.pageNum + 1) ∧
      s.selectedRest ≤ s.numOfRestaurants - 1 then loadNextPage s
  else if s.selectedRest = REST_DISP_NUM * s.pageNum - 1 ∧ s.selectedRest ≥ 0 ∧
      s.pageNum > 0 then loadPreviousPage s
  else s

/-- The first part of `scrollingMenu()`, up to the button test: the highlight
moves, a page is loaded when a page border is crossed, the position is
constrained, and the two entries concerned are redrawn. -/
def moveSelection (v : Int) (s : NavState) : NavState :=
  let oldRest := s.selectedRest
  let s2 := turnPage (nudgeSelection v s)
  let s3 := { s2 with selectedRest := constrain s2.selectedRest 0 (s2.numOfRestaurants - 1) }
  if oldRest ≠ s3.selectedRest then printRestaurant s3.selectedRest (printRestaurant oldRest s3)
  else s3

/-- The click branch of `scrollingMenu()`: `r` is the record that
`getRestaurant` delivers for `restaurants[selectedRest]`. -/
def selectRestaurant (lon_to_x lat_to_y : Int → Int) (MAPWIDTH MAPHEIGHT : Int)
    (r : restaurant) (s : NavState) : NavState :=
  let s5 := { s with lookedUp := s.lookedUp ++ [s.selectedRest] }
  let mapX := constrain (lon_to_x r.lon - Int.tdiv DISP_WIDTH 2) 0 (MAPWIDTH - DISP_WIDTH)
  let mapY := constrain (lat_to_y r.lat - Int.tdiv DISP_HEIGHT 2) 0 (MAPHEIGHT - DISP_HEIGHT)
  let cursorX := constrain (lon_to_x r.lon - mapX) (Int.tdiv CURSOR_SIZE 2)
    (DISP_WIDTH - Int.tdiv CURSOR_SIZE 2 - 1)
  let cursorY := constrain (lat_to_y r.lat - mapY) (Int.tdiv CURSOR_SIZE 2)
    (DISP_HEIGHT - Int.tdiv CURSOR_SIZE 2 - 1)
  let cur : MapView := { mapX := mapX, mapY := mapY, cursorX := cursorX, cursorY := cursorY }
  beginMode0 { s5 with curView := cur, preView := cur }

/-- Source function `scrollingMenu()`.  `v` is the `analogRead` value, `sel` the
`digitalRead(JOY_SEL)` value, and `r` the record that the click branch
fetches.  The wait for the release of the button changes nothing. -/
def scrollingMenu (lon_to_x lat_to_y : Int → Int) (MAPWIDTH MAPHEIGHT : Int)
    (v sel : Int) (r : restaurant) (s : NavState) : NavState :=
  let s4 := moveSelection v s
  if sel = LOW then selectRestaurant lon_to_x lat_to_y MAPWIDTH MAPHEIGHT r s4 else s4

/-- The viewport invariant: the window lies on the map and the cursor keeps
half its size away from the window border. -/
def ViewInv (MAPWIDTH MAPHEIGHT : Int) (mv : MapView) : Prop :=
  0 ≤ mv.mapX ∧ mv.mapX ≤ MAPWIDTH - DISP_WIDTH ∧
  0 ≤ mv.mapY ∧ mv.mapY ≤ MAPHEIGHT - DISP_HEIGHT ∧
  Int.tdiv CURSOR_SIZE 2 ≤ mv.cursorX ∧ mv.cursorX ≤ DISP_WIDTH - Int.tdiv CURSOR_SIZE 2 - 1 ∧
  Int.tdiv CURSOR_SIZE 2 ≤ mv.cursorY ∧ mv.cursorY ≤ DISP_HEIGHT - Int.tdiv CURSOR_SIZE 2 - 1

instance (MAPWIDTH MAPHEIGHT : Int) (mv : MapView) :
    Decidable (ViewInv MAPWIDTH MAPHEIGHT mv) := by
  unfold ViewInv
  infer_instance

/-- The states the firmware reaches from `setup()` by `scrollingMap` steps and
`scrollingMenu` steps, for all inputs. -/
inductive Reachable (lon_to_x lat_to_y : Int → Int) (rank : MapView → Int → Int)
    (MAPWIDTH MAPHEIGHT : Int) : NavState → Prop
  | start : Reachable lon_to_x lat_to_y rank MAPWIDTH MAPHEIGHT (setup MAPWIDTH MAPHEIGHT)
  | browse (s : NavState) (v h invSelect : Int) :
      Reachable lon_to_x lat_to_y rank MAPWIDTH MAPHEIGHT s →
      Reachable lon_to_x lat_to_y rank MAPWIDTH MAPHEIGHT
        (scrollingMap rank MAPWIDTH MAPHEIGHT v h invSelect s)
  | list (s : NavState) (v sel : Int) (r : restaurant) :
      Reachable lon_to_x lat_to_y rank MAPWIDTH MAPHEIGHT s →
      Reachable lon_to_x lat_to_y rank MAPWIDTH MAPHEIGHT
        (scrollingMenu lon_to_x lat_to_y MAPWIDTH MAPHEIGHT v sel r s)

/-- The part of the state that the drawing calls leave alone. -/
def SameControl (s t : NavState) : Prop :=
  t.selectedRest = s.selectedRest ∧ t.mode = s.mode ∧
  t.previousRatingSelection = s.previousRatingSelection ∧ t.pageNum = s.pageNum ∧
  t.numOfRestaurants = s.numOfRestaurants ∧ t.curView = s.curView ∧ t.preView = s.preView ∧
  t.lookedUp = s.lookedUp

/-! ## Sample data -/

/-- The catalogue of the ranking scenario: three records at distances 50, 10
and 30 from the point (136, 120), with ratings 4, 2 and 5. -/
def scenarioCard : Sd2Card where
  blocks := fun b s =>
    if b = 4000000 then
      match s.val with
      | 0 => ⟨120, 186, 4, "first"⟩
      | 1 => ⟨120, 146, 2, "second"⟩
      | 2 => ⟨120, 166, 5, "third"⟩
      | _ => default
    else default
  faults := []

/-- A view at the top left corner of the map with the cursor in the middle of
the window; its focal point is (136, 120). -/
def scenarioView : MapView :=
  { mapX := 0, mapY := 0, cursorX := 136, cursorY := 120 }

/-- A view on a 2048 by 2048 map with the cursor on the right clamp border. -/
def borderView : MapView :=
  { mapX := 0, mapY := 480, cursorX := 267, cursorY := 120 }

/-- A LIST state with 40 candidates, the highlight on position 29 of page 0. -/
def listState : NavState :=
  { setup 2048 2048 with mode := 1, numOfRestaurants := 40, selectedRest := 29 }

/-- The state after `setup()` and a click in BROWSE, when the ranking query
finds no candidate. -/
def emptyListState : NavState :=
  scrollingMap (fun _ _ => 0) 2048 2048 512 512 LOW (setup 2048 2048)

/-- A LIST session with 40 candidates: a click in BROWSE, then the joystick
held down for 30 steps, which brings the highlight to position 30 on page 1,
then a click on that entry, which leads back to BROWSE. -/
def afterListSession : NavState :=
  scrollingMenu (fun x => x) (fun y => y) 2048 2048 512 LOW ⟨700, 900, 4, "chosen"⟩
    ((List.range 30).foldl
      (fun (s : NavState) (_ : Nat) =>
        scrollingMenu (fun x => x) (fun y => y) 2048 2048 1023 1 default s)
      (scrollingMap (fun _ _ => 40) 2048 2048 512 512 LOW (setup 2048 2048)))

/-! ## Rating selector (`a2-2.cpp`, `checkTouch`) -/

def TS_MINX : Int := 150

def TS_MINY : Int := 120

def TS_MAXX : Int := 920

def TS_MAXY : Int := 940

def MINPRESSURE : Int := 10

def MAXPRESSURE : Int := 1000

/-- A reading of the touch screen, `TSPoint` of the TouchScreen library: raw
coordinates and pressure. -/
structure TSPoint where
  x : Int
  y : Int
  z : Int
deriving DecidableEq, Repr, Inhabited

/-- The Arduino function `map(x, in_min, in_max, out_min, out_max)`,
`(x - in_min) * (out_max - out_min) / (in_max - in_min) + out_min`, computed in
`long`; for 16-bit readings no intermediate value leaves the range of `long`. -/
def map (x in_min in_max out_min out_max : Int) : Int :=
  Int.tdiv ((x - in_min) * (out_max - out_min)) (in_max - in_min) + out_min

/-- The half-screen guard of the loop body of `checkTouch`,
`(i==0 && touchY < TFT_HEIGHT/2) || (i==4 && touchY > TFT_HEIGHT/2) || (i > 0 && i < 4)`. -/
def buttonGuard (touchY : Int) (i : Nat) : Prop :=
  (i = 0 ∧ touchY < Int.tdiv TFT_HEIGHT 2) ∨ (i = 4 ∧ touchY > Int.tdiv TFT_HEIGHT 2) ∨
    (i > 0 ∧ i < 4)

instance (touchY : Int) (i : Nat) : Decidable (buttonGuard touchY i) := by
  unfold buttonGuard
  infer_instance

/-- The body of the `for` loop of `checkTouch` for button `i`, in the 16-bit
`int` arithmetic of the target.  The calls that redraw the buttons leave the
state alone. -/
def touchButton (touchX touchY : Int) (i : Nat) (s : NavState) : NavState :=
  let xCoord := wrap16 ((s.buttonCoords.getD i (0, 0)).1 - touchX)
  let yCoord := wrap16 ((s.buttonCoords.getD i (0, 0)).2 - touchY)
  if buttonGuard touchY i then
    if wrap16 (wrap16 (xCoord * xCoord) + wrap16 (yCoord * yCoord))
          ≤ wrap16 (buttonRadius * buttonRadius) ∧
        (i : Int) ≠ s.previousRatingSelection ∧ touchX ≥ DISP_WIDTH then
      { s with previousRatingSelection := (i : Int) }
    else s
  else s

/-- The `for (int i=0; i<5; i++)` loop of `checkTouch` at the mapped point
`(touchX, touchY)`. -/
def hitTest (touchX touchY : Int) (s : NavState) : NavState :=
  (List.range 5).foldl (fun (st : NavState) (i : Nat) => touchButton touchX touchY i st) s

/-- Source function `checkTouch()`; `touch` is the value of `ts.getPoint()`. -/
def checkTouch (touch : TSPoint) (s : NavState) : NavState :=
  if touch.z < MINPRESSURE ∨ touch.z > MAXPRESSURE then s
  else
    let touchY := wrap16 (map touch.x TS_MINX TS_MAXX 0 (TFT_HEIGHT - 1))
    let touchX := wrap16 (map touch.y TS_MINY TS_MAXY (TFT_WIDTH - 1) 0)
    hitTest touchX touchY s

/-- The loop body of `checkTouch` for button `i` with the circle test evaluated
in exact integer arithmetic. -/
def touchButtonExact (touchX touchY : Int) (i : Nat) (s : NavState) : NavState :=
  let xCoord := (s.buttonCoords.getD i (0, 0)).1 - touchX
  let yCoord := (s.buttonCoords.getD i (0, 0)).2 - touchY
  if buttonGuard touchY i then
    if xCoord * xCoord + yCoord * yCoord ≤ buttonRadius * buttonRadius ∧
        (i : Int) ≠ s.previousRatingSelection ∧ touchX ≥ DISP_WIDTH then
      { s with previousRatingSelection := (i : Int) }
    else s
  else s

/-- The loop of `checkTouch` with the circle test evaluated in exact integer
arithmetic. -/
def hitTestExact (touchX touchY : Int) (s : NavState) : NavState :=
  (List.range 5).foldl
    (fun (st : NavState) (i : Nat) => touchButtonExact touchX touchY i st) s

/-- The button layout that `beginMode0()` stores in `buttonCoords`: button `i`
is centred at `(TFT_WIDTH − RATING_SIZE/2, 20 + 48·i)`. -/
def buttonLayout : List (Int × Int) :=
  [(296, 20), (296, 68), (296, 116), (296, 164), (296, 212)]

/-- The mapped point lies in the circle of radius `buttonRadius` around the
centre of button `i` of the layout. -/
def InButton (touchX touchY : Int) (i : Nat) : Prop :=
  (296 - touchX) * (296 - touchX) + (20 + 48 * (i : Int) - touchY) * (20 + 48 * (i : Int) - touchY)
    ≤ buttonRadius * buttonRadius

instance (touchX touchY : Int) (i : Nat) : Decidable (InButton touchX touchY i) := by
  unfold InButton
  infer_instance

/-! ## Predicates on the partition loop and on the ranking pass -/

/-- In the state `(restaurants, lo, hi)` the loop of `pivot` runs an iteration
that takes the `swap` branch. -/
def SwapBranch (n : Int) (restaurants : List RestDist) (lo hi : Int) : Prop :=
  lo ≤ hi ∧ ∃ rhi rlast rlo, getAt restaurants hi = some rhi ∧
    getAt restaurants (n - 1) = some rlast ∧ getAt restaurants lo = some rlo ∧
    ¬ rhi.dist > rlast.dist ∧ ¬ rlo.dist ≤ rlast.dist

/-- In the state `(restaurants, lo, hi)` the loop of `pivot` runs an iteration
that takes the `hi--` branch. -/
def DecBranch (n : Int) (restaurants : List RestDist) (lo hi : Int) : Prop :=
  lo ≤ hi ∧ ∃ rhi rlast, getAt restaurants hi = some rhi ∧
    getAt restaurants (n - 1) = some rlast ∧ rhi.dist > rlast.dist

/-- The distance that the loop of `getAndSortRestaurants` computes for the
record stored at index `i` of the card. -/
def computedDist (lon_to_x lat_to_y : Int → Int) (mv : MapView) (card : Sd2Card)
    (i : Int) : Int :=
  manhattan (wrap16 (lat_to_y (storedRecord card i).lat))
    (wrap16 (lon_to_x (storedRecord card i).lon))
    (wrap16 (mv.mapY + mv.cursorY)) (wrap16 (mv.mapX + mv.cursorX))

/-- The list positions of page `page` of a list of `count` candidates, in
increasing order: `REST_DISP_NUM * page + k` for `k = 0 .. REST_DISP_NUM − 1`,
as far as they are below `count`. -/
def pagePositions (page count : Int) : List Int :=
  ((List.range REST_DISP_NUM.toNat).map fun (k : Nat) => REST_DISP_NUM * page + (k : Int)).filter
    fun i => decide (i < count)

/-- A catalogue of two records of which only the first projects onto the
2048 by 2048 map: the second has longitude 40000. -/
def mixedCard : Sd2Card where
  blocks := fun b s =>
    if b = 4000000 then
      match s.val with
      | 0 => ⟨120, 186, 4, "on the map"⟩
      | 1 => ⟨120, 40000, 3, "off the map"⟩
      | _ => default
    else default
  faults := []
/-! ### Lemmas on the record store -/

theorem readUntilDone_buffer (blocks : Nat → Fin 8 → restaurant) (block : Nat)
    (fs : List Bool) (dst : Fin 8 → restaurant) :
    (readUntilDone blocks block fs dst).1 = blocks block := by
  induction fs with
  | nil => rfl
  | cons b rest ih => cases b <;> simp [readUntilDone, ih]

theorem readUntilDone_reliable (blocks : Nat → Fin 8 → restaurant) (block : Nat)
    (fs : List Bool) (dst : Fin 8 → restaurant) (hok : ∀ b ∈ fs, b = true) :
    (readUntilDone blocks block fs dst).2.2 = 1 ∧
      ∀ b ∈ (readUntilDone blocks block fs dst).2.1, b = true := by
  cases fs with
  | nil => simp [readUntilDone]
  | cons b rest =>
    have hb : b = true := hok b (List.mem_cons_self _ _)
    subst hb
    refine ⟨rfl, ?_⟩
    intro x hx
    exact hok x (List.mem_cons_of_mem _ hx)

theorem blockNumber_of_valid (i : Int) (h0 : 0 ≤ i) (h1 : i < 2 ^ 31) :
    blockNumber i = (REST_START_BLOCK + i / 8).toNat := by
  unfold blockNumber REST_START_BLOCK
  rw [Int.tdiv_eq_ediv h0 (by decide)]
  omega

theorem blockNumber_pos (i : Int) (h0 : 0 ≤ i) (h1 : i < 2 ^ 31) :
    blockNumber i ≠ 0 := by
  rw [blockNumber_of_valid i h0 h1]
  unfold REST_START_BLOCK
  omega

theorem getRestaurant_spec (i : Int) (h0 : 0 ≤ i) (h1 : i < 2 ^ 31)
    (card : Sd2Card) (cache : RestCache) (hv : CacheValid card cache) :
    ∃ f, getRestaurant i card cache = some f ∧ f.record = storedRecord card i ∧
      f.card.blocks = card.blocks ∧ CacheValid f.card f.cache ∧
      f.cache.cachedBlock = blockNumber i := by
  have hslot : Int.tmod i 8 = i % 8 := Int.tmod_eq_emod h0 (by decide)
  have hs0 : (0 : Int) ≤ i % 8 := by omega
  have hbn := blockNumber_of_valid i h0 h1
  have hpos := blockNumber_pos i h0 h1
  by_cases hb : blockNumber i = cache.cachedBlock
  · refine ⟨⟨cache.block (Fin.ofNat (i % 8).toNat), card, cache, 0⟩, ?_, ?_, rfl, hv, hb.symm⟩
    · simp [getRestaurant, hb, hslot, hs0]
    · have hne : cache.cachedBlock ≠ 0 := by rw [← hb]; exact hpos
      show cache.block _ = _
      rw [hv hne, ← hb, hbn]
      rfl
  · refine ⟨⟨card.blocks (blockNumber i) (Fin.ofNat (i % 8).toNat),
      { card with faults := (readUntilDone card.blocks (blockNumber i) card.faults cache.block).2.1 },
      { block := card.blocks (blockNumber i), cachedBlock := blockNumber i },
      (readUntilDone card.blocks (blockNumber i) card.faults cache.block).2.2⟩, ?_, ?_, rfl, ?_, rfl⟩
    · simp [getRestaurant, hb, hslot, hs0, readUntilDone_buffer]
    · show card.blocks _ _ = _
      rw [hbn]
      rfl
    · intro _
      rfl

theorem fetchSequence_spec (is : List Int) (his : ∀ i ∈ is, 0 ≤ i ∧ i < 2 ^ 31) :
    ∀ (card : Sd2Card) (cache : RestCache), CacheValid card cache →
      ∃ rs card2 cache2, fetchSequence is card cache = some (rs, card2, cache2) ∧
        rs.map Prod.fst = is.map (storedRecord card) := by
  induction is with
  | nil =>
    intro card cache _
    exact ⟨[], card, cache, rfl, rfl⟩
  | cons i rest ih =>
    intro card cache hv
    have hi := his i (List.mem_cons_self _ _)
    obtain ⟨f, hf, hrec, hblocks, hv2, _⟩ := getRestaurant_spec i hi.1 hi.2 card cache hv
    obtain ⟨rs, card2, cache2, hrest, hmap⟩ :=
      ih (fun j hj => his j (List.mem_cons_of_mem _ hj)) f.card f.cache hv2
    refine ⟨(f.record, f.reads) :: rs, card2, cache2, ?_, ?_⟩
    · simp [fetchSequence, hf, hrest]
    · have hsame : storedRecord f.card = storedRecord card := by
        funext j
        simp [storedRecord, hblocks]
      simp [hmap, hrec, hsame]


theorem getRestaurant_hit (i : Int) (h0 : 0 ≤ i) (card : Sd2Card) (cache : RestCache)
    (hb : blockNumber i = cache.cachedBlock) :
    getRestaurant i card cache =
      some ⟨cache.block (Fin.ofNat (i % 8).toNat), card, cache, 0⟩ := by
  have hslot : Int.tmod i 8 = i % 8 := Int.tmod_eq_emod h0 (by decide)
  have hs0 : (0 : Int) ≤ i % 8 := by omega
  simp [getRestaurant, hb, hslot, hs0]

theorem getRestaurant_miss (i : Int) (h0 : 0 ≤ i) (card : Sd2Card) (cache : RestCache)
    (hb : blockNumber i ≠ cache.cachedBlock) :
    getRestaurant i card cache =
      some ⟨card.blocks (blockNumber i) (Fin.ofNat (i % 8).toNat),
        { card with
          faults := (readUntilDone card.blocks (blockNumber i) card.faults cache.block).2.1 },
        { block := card.blocks (blockNumber i), cachedBlock := blockNumber i },
        (readUntilDone card.blocks (blockNumber i) card.faults cache.block).2.2⟩ := by
  have hslot : Int.tmod i 8 = i % 8 := Int.tmod_eq_emod h0 (by decide)
  have hs0 : (0 : Int) ≤ i % 8 := by omega
  simp [getRestaurant, hb, hslot, hs0, readUntilDone_buffer]

theorem fetchSequence_hits (is : List Int) (card : Sd2Card) (cache : RestCache)
    (his : ∀ i ∈ is, 0 ≤ i ∧ blockNumber i = cache.cachedBlock) :
    ∃ rs, fetchSequence is card cache = some (rs, card, cache) ∧
      rs.map Prod.snd = List.replicate is.length 0 := by
  induction is with
  | nil => exact ⟨[], rfl, rfl⟩
  | cons i rest ih =>
    have hi := his i (List.mem_cons_self _ _)
    obtain ⟨rs, hrs, hmap⟩ := ih (fun j hj => his j (List.mem_cons_of_mem _ hj))
    refine ⟨(cache.block (Fin.ofNat (i % 8).toNat), 0) :: rs, ?_, ?_⟩
    · simp [fetchSequence, getRestaurant_hit i hi.1 card cache hi.2, hrs]
    · simp [hmap, List.replicate_succ]

/-! ### C1 and C5: the record store -/

/-- C1. Whatever the card holds and whatever finite sequence of indices in
`[0, NUM_RESTAURANTS)` is fetched, starting from the start-up cache
(`cachedBlock = 0`, any buffer content), every call of `getRestaurant` returns
and yields the record stored at its index: slot `i % 8` of block
`REST_START_BLOCK + i / 8`.  Block reads succeed at once or after finitely
many retries.  `NUM_RESTAURANTS` is a header constant; it is only required to
fit a C `int`. -/
theorem getRestaurant_returns_stored_record (NUM_RESTAURANTS : Nat)
    (hN : NUM_RESTAURANTS ≤ 2 ^ 31) (card : Sd2Card) (buf : Fin 8 → restaurant)
    (is : List Int) (his : ∀ i ∈ is, 0 ≤ i ∧ i < (NUM_RESTAURANTS : Int)) :
    ∃ rs card2 cache2,
      fetchSequence is card { block := buf, cachedBlock := 0 } = some (rs, card2, cache2) ∧
        rs.map Prod.fst = is.map (storedRecord card) := by
  have hN2 : (NUM_RESTAURANTS : Int) ≤ 2 ^ 31 := by exact_mod_cast hN
  apply fetchSequence_spec is (fun i hi => ⟨(his i hi).1, lt_of_lt_of_le (his i hi).2 hN2⟩)
  intro h
  exact absurd rfl h

/-- Witness of C1: ten catalogue entries, fetched in the order 9, 0, 10, 1, 9
from the start-up cache on a card whose first read attempt fails. -/
theorem getRestaurant_returns_stored_record_witness :
    (12 ≤ 2 ^ 31 ∧ ∀ i ∈ [(9 : Int), 0, 10, 1, 9], 0 ≤ i ∧ i < ((12 : Nat) : Int)) ∧
    ∃ rs card2 cache2,
      fetchSequence [9, 0, 10, 1, 9] sampleCard { block := fun _ => default, cachedBlock := 0 }
          = some (rs, card2, cache2) ∧
        rs.map Prod.fst = [(9 : Int), 0, 10, 1, 9].map (storedRecord sampleCard) :=
  ⟨⟨by norm_num, by decide⟩,
    getRestaurant_returns_stored_record 12 (by norm_num) sampleCard (fun _ => default)
      [9, 0, 10, 1, 9] (by decide)⟩

/-- C5. On a card whose read attempts succeed, a call `getRestaurant(i)` with
a valid index issues at most one block read, and none exactly when
`REST_START_BLOCK + i/8` is the cached block; and a sequence of fetches whose
indices lie in one block, started from the start-up cache (`cachedBlock = 0`)
or from a cache holding another block, reads the block in its first fetch only
and performs no read in any later one. -/
theorem getRestaurant_block_reads (NUM_RESTAURANTS : Nat)
    (hN : NUM_RESTAURANTS ≤ 2 ^ 31) (card : Sd2Card) (hok : card.Reliable)
    (cache : RestCache) :
    (∀ i : Int, 0 ≤ i → i < NUM_RESTAURANTS →
      ∃ f, getRestaurant i card cache = some f ∧ f.reads ≤ 1 ∧
        (f.reads = 0 ↔ blockNumber i = cache.cachedBlock)) ∧
    (∀ (i : Int) (rest : List Int),
      (∀ j ∈ i :: rest, 0 ≤ j ∧ j < (NUM_RESTAURANTS : Int) ∧ blockNumber j = blockNumber i) →
      (cache.cachedBlock = 0 ∨ cache.cachedBlock ≠ blockNumber i) →
      ∃ rs card2 cache2, fetchSequence (i :: rest) card cache = some (rs, card2, cache2) ∧
        rs.map Prod.snd = 1 :: List.replicate rest.length 0) := by
  have hN2 : (NUM_RESTAURANTS : Int) ≤ 2 ^ 31 := by exact_mod_cast hN
  constructor
  · intro i h0 _
    by_cases hb : blockNumber i = cache.cachedBlock
    · exact ⟨_, getRestaurant_hit i h0 card cache hb, by simp, by simp [hb]⟩
    · have hr := (readUntilDone_reliable card.blocks (blockNumber i) card.faults
        cache.block hok).1
      exact ⟨_, getRestaurant_miss i h0 card cache hb, by simp [hr], by simp [hr, hb]⟩
  · intro i rest hall hcache
    have hi := hall i (List.mem_cons_self _ _)
    have hb : blockNumber i ≠ cache.cachedBlock := by
      rcases hcache with h | h
      · rw [h]
        exact blockNumber_pos i hi.1 (lt_of_lt_of_le hi.2.1 hN2)
      · exact fun e => h e.symm
    have hr := (readUntilDone_reliable card.blocks (blockNumber i) card.faults
      cache.block hok).1
    obtain ⟨rs, hrs, hmap⟩ := fetchSequence_hits rest
      { card with
        faults := (readUntilDone card.blocks (blockNumber i) card.faults cache.block).2.1 }
      { block := card.blocks (blockNumber i), cachedBlock := blockNumber i }
      (fun j hj => ⟨(hall j (List.mem_cons_of_mem _ hj)).1,
        (hall j (List.mem_cons_of_mem _ hj)).2.2⟩)
    refine ⟨(card.blocks (blockNumber i) (Fin.ofNat (i % 8).toNat),
        (readUntilDone card.blocks (blockNumber i) card.faults cache.block).2.2) :: rs,
      { card with
        faults := (readUntilDone card.blocks (blockNumber i) card.faults cache.block).2.1 },
      { block := card.blocks (blockNumber i), cachedBlock := blockNumber i }, ?_, ?_⟩
    · simp only [fetchSequence, getRestaurant_miss i hi.1 card cache hb, hrs]
    · simp [hmap, hr]

/-- Witness of C5: a reliable card, the start-up cache, and the fetches
17, 16, 23, 17, all of block `REST_START_BLOCK + 2`. -/
theorem getRestaurant_block_reads_witness :
    (24 ≤ 2 ^ 31 ∧ goodCard.Reliable) ∧
    ((∀ i : Int, 0 ≤ i → i < ((24 : Nat) : Int) →
      ∃ f, getRestaurant i goodCard startupCache = some f ∧ f.reads ≤ 1 ∧
        (f.reads = 0 ↔ blockNumber i = startupCache.cachedBlock)) ∧
    (∀ (i : Int) (rest : List Int),
      (∀ j ∈ i :: rest, 0 ≤ j ∧ j < ((24 : Nat) : Int) ∧ blockNumber j = blockNumber i) →
      (startupCache.cachedBlock = 0 ∨ startupCache.cachedBlock ≠ blockNumber i) →
      ∃ rs card2 cache2,
        fetchSequence (i :: rest) goodCard startupCache = some (rs, card2, cache2) ∧
          rs.map Prod.snd = 1 :: List.replicate rest.length 0)) :=
  ⟨⟨by norm_num, by simp [Sd2Card.Reliable, goodCard]⟩,
    getRestaurant_block_reads 24 (by norm_num) goodCard
      (by simp [Sd2Card.Reliable, goodCard]) startupCache⟩

/-! ### Lemmas on array accesses and `swap` -/

theorem getAt_eq (a : List RestDist) (i : Int) (k : Nat) (h : i = k) :
    getAt a i = a[k]? := by
  subst h
  simp [getAt]

theorem setAt_eq (a : List RestDist) (i : Int) (k : Nat) (v : RestDist) (h : i = k)
    (hk : k < a.length) : setAt a i v = some (a.set k v) := by
  subst h
  have : ((k : Int) < (a.length : Int)) := by exact_mod_cast hk
  simp [setAt, this]

theorem swap_eq (a : List RestDist) (i j : Int) (ki kj : Nat) (x y : RestDist)
    (hi : i = ki) (hj : j = kj) (hx : a[ki]? = some x) (hy : a[kj]? = some y) :
    swap a i j = some ((a.set ki y).set kj x) := by
  have hki : ki < a.length := (List.getElem?_eq_some_iff.mp hx).1
  have hkj : kj < a.length := (List.getElem?_eq_some_iff.mp hy).1
  simp only [swap, getAt_eq a i ki hi, getAt_eq a j kj hj, hx, hy, setAt_eq a i ki y hi hki]
  exact setAt_eq _ j kj x hj (by simpa using hkj)

theorem getElem?_swapped (a : List RestDist) (ki kj k : Nat) (x y : RestDist)
    (hx : a[ki]? = some x) (hy : a[kj]? = some y) :
    ((a.set ki y).set kj x)[k]? =
      if k = kj then some x else if k = ki then some y else a[k]? := by
  have hki : ki < a.length := (List.getElem?_eq_some_iff.mp hx).1
  have hkj : kj < a.length := (List.getElem?_eq_some_iff.mp hy).1
  simp only [List.getElem?_set, List.length_set]
  by_cases h1 : kj = k
  · subst h1
    simp [hkj]
  · have h1' : k ≠ kj := fun e => h1 e.symm
    by_cases h2 : ki = k
    · subst h2
      simp [h1, h1', hki]
    · have h2' : k ≠ ki := fun e => h2 e.symm
      simp [h1, h1', h2, h2']

theorem swapped_perm (a : List RestDist) (ki kj : Nat) (x y : RestDist)
    (hx : a[ki]? = some x) (hy : a[kj]? = some y) :
    ((a.set ki y).set kj x).Perm a := by
  obtain ⟨hki, hxi⟩ := List.getElem?_eq_some_iff.mp hx
  obtain ⟨hkj, hyj⟩ := List.getElem?_eq_some_iff.mp hy
  rw [List.perm_iff_count]
  intro b
  have hkj2 : kj < (a.set ki y).length := by simpa using hkj
  rw [List.count_set _ _ _ _ hkj2, List.count_set _ _ _ _ hki]
  have hmid : (a.set ki y)[kj] = y := by
    rw [List.getElem_set]
    split
    · rfl
    · exact hyj
  rw [hmid, hxi]
  have hcx : (if (x == b) = true then 1 else 0) ≤ List.count b a := by
    split
    · rename_i hb
      have hb' : x = b := by simpa using hb
      subst hb'
      exact List.count_pos_iff.mpr (List.mem_iff_getElem?.mpr ⟨ki, hx⟩)
    · exact Nat.zero_le _
  omega

/-! ### The partition loop -/

theorem pivotLoop_spec (N : Nat) (pv : RestDist) :
    ∀ (m fuel : Nat) (a : List RestDist) (l h1 : Nat) (lo hi : Int),
      lo = l → hi + 1 = h1 → h1 = l + m → h1 + 1 ≤ N → N ≤ a.length → 2 * m + 1 ≤ fuel →
      a[N - 1]? = some pv →
      (∀ k x, k < l → a[k]? = some x → x.dist ≤ pv.dist) →
      (∀ k x, h1 ≤ k → k + 1 < N → a[k]? = some x → pv.dist < x.dist) →
      ∃ (a2 : List RestDist) (p : Nat),
        pivotLoop N fuel a lo hi = some (a2, (p : Int)) ∧ l ≤ p ∧ p ≤ h1 ∧
        a2.Perm a ∧ a2.length = a.length ∧
        (∀ k, N ≤ k + 1 → a2[k]? = a[k]?) ∧
        (∀ k x, k < p → a2[k]? = some x → x.dist ≤ pv.dist) ∧
        (∀ k x, p ≤ k → k + 1 < N → a2[k]? = some x → pv.dist < x.dist) := by
  intro m
  induction m with
  | zero =>
    intro fuel a l h1 lo hi hlo hhi hm hN hlen hfuel hpv hlow hhigh
    obtain ⟨f, rfl⟩ : ∃ f, fuel = f + 1 := ⟨fuel - 1, by omega⟩
    have hnle : ¬ lo ≤ hi := by omega
    refine ⟨a, l, ?_, le_refl _, by omega, List.Perm.refl _, rfl, fun _ _ => rfl, hlow, ?_⟩
    · rw [pivotLoop, if_neg hnle, hlo]
    · intro k x hk
      exact hhigh k x (by omega)
  | succ m ih =>
    intro fuel a l h1 lo hi hlo hhi hm hN hlen hfuel hpv hlow hhigh
    obtain ⟨f, rfl⟩ : ∃ f, fuel = f + 1 := ⟨fuel - 1, by omega⟩
    have hle : lo ≤ hi := by omega
    have hhiN : hi = ((l + m : Nat) : Int) := by omega
    have hlt : l + m < a.length := by omega
    have hllt : l < a.length := by omega
    obtain ⟨rhi, hrhi⟩ : ∃ r, a[l + m]? = some r := ⟨a[l + m], List.getElem?_eq_getElem hlt⟩
    obtain ⟨rlo, hrlo⟩ : ∃ r, a[l]? = some r := ⟨a[l], List.getElem?_eq_getElem hllt⟩
    have hg1 : getAt a hi = some rhi := by
      rw [getAt_eq a hi (l + m) hhiN]
      exact hrhi
    have hg2 : getAt a ((N : Int) - 1) = some pv := by
      rw [getAt_eq a _ (N - 1) (by omega)]
      exact hpv
    have hg3 : getAt a lo = some rlo := by
      rw [getAt_eq a lo l hlo]
      exact hrlo
    by_cases hc1 : rhi.dist > pv.dist
    · -- `hi--`
      obtain ⟨a2, p, hrun, hp1, hp2, hperm, hlen2, hframe, hl2, hh2⟩ :=
        ih f a l (l + m) lo (hi - 1) hlo (by omega) rfl (by omega) hlen (by omega) hpv hlow
          (by
            intro k x hk hkN hx
            by_cases hkk : k = l + m
            · subst hkk
              rw [hrhi] at hx
              cases hx
              exact hc1
            · exact hhigh k x (by omega) hkN hx)
      refine ⟨a2, p, ?_, hp1, by omega, hperm, hlen2, hframe, hl2, hh2⟩
      rw [pivotLoop]
      simp only [hle, if_true, hg1, hg2, hc1]
      exact hrun
    · by_cases hc2 : rlo.dist ≤ pv.dist
      · -- `lo++`
        obtain ⟨a2, p, hrun, hp1, hp2, hperm, hlen2, hframe, hl2, hh2⟩ :=
          ih f a (l + 1) h1 (lo + 1) hi (by omega) hhi (by omega) hN hlen (by omega) hpv
            (by
              intro k x hk hx
              by_cases hkk : k = l
              · subst hkk
                rw [hrlo] at hx
                cases hx
                exact hc2
              · exact hlow k x (by omega) hx)
            hhigh
        refine ⟨a2, p, ?_, by omega, hp2, hperm, hlen2, hframe, hl2, hh2⟩
        rw [pivotLoop]
        simp only [hle, if_true, hg1, hg2, hc1, if_false, hg3, hc2]
        exact hrun
      · -- `swap`, and then `hi--` in the next iteration
        obtain ⟨f2, rfl⟩ : ∃ f2, f = f2 + 1 := ⟨f - 1, by omega⟩
        have hsw : swap a lo hi = some ((a.set l rhi).set (l + m) rlo) :=
          swap_eq a lo hi l (l + m) rlo rhi hlo hhiN hrlo hrhi
        have hget := fun k => getElem?_swapped a l (l + m) k rlo rhi hrlo hrhi
        have hb1 : ((a.set l rhi).set (l + m) rlo)[l + m]? = some rlo := by
          rw [hget]
          simp
        have hb2 : ((a.set l rhi).set (l + m) rlo)[N - 1]? = some pv := by
          rw [hget, if_neg (by omega), if_neg (by omega)]
          exact hpv
        have hg1b : getAt ((a.set l rhi).set (l + m) rlo) hi = some rlo := by
          rw [getAt_eq _ hi (l + m) hhiN]
          exact hb1
        have hg2b : getAt ((a.set l rhi).set (l + m) rlo) ((N : Int) - 1) = some pv := by
          rw [getAt_eq _ _ (N - 1) (by omega)]
          exact hb2
        have hc3 : rlo.dist > pv.dist := by omega
        obtain ⟨a2, p, hrun, hp1, hp2, hperm, hlen2, hframe, hl2, hh2⟩ :=
          ih f2 ((a.set l rhi).set (l + m) rlo) l (l + m) lo (hi - 1) hlo (by omega) rfl
            (by omega) (by simpa using hlen) (by omega) hb2
            (by
              intro k x hk hx
              rw [hget, if_neg (by omega), if_neg (by omega)] at hx
              exact hlow k x hk hx)
            (by
              intro k x hk hkN hx
              by_cases hkk : k = l + m
              · subst hkk
                rw [hb1] at hx
                cases hx
                exact hc3
              · rw [hget, if_neg hkk, if_neg (by omega)] at hx
                exact hhigh k x (by omega) hkN hx)
        refine ⟨a2, p, ?_, hp1, by omega,
          hperm.trans (swapped_perm a l (l + m) rlo rhi hrlo hrhi),
          by simpa using hlen2, ?_, hl2, hh2⟩
        · rw [pivotLoop]
          simp only [hle, if_true, hg1, hg2, hc1, if_false, hg3, hc2, hsw]
          rw [pivotLoop]
          simp only [hle, if_true, hg1b, hg2b, hc3]
          exact hrun
        · intro k hk
          rw [hframe k hk, hget, if_neg (by omega), if_neg (by omega)]

/-! ### `pivot` -/

theorem pivot_spec (a : List RestDist) (N q : Nat) (n pi : Int) (x0 : RestDist)
    (hn : n = N) (hpi : pi = q) (hq : q < N) (hN : N ≤ a.length)
    (hx0 : a[q]? = some x0) :
    ∃ (a3 : List RestDist) (p : Nat),
      pivot a n pi = some (a3, (p : Int)) ∧ p < N ∧ a3.Perm a ∧ a3.length = a.length ∧
      (∀ k, N ≤ k → a3[k]? = a[k]?) ∧ a3[p]? = some x0 ∧
      (∀ k x, k < p → a3[k]? = some x → x.dist ≤ x0.dist) ∧
      (∀ k x, p < k → k < N → a3[k]? = some x → x0.dist < x.dist) := by
  subst hn
  have hlast : N - 1 < a.length := by omega
  obtain ⟨y, hy⟩ : ∃ r, a[N - 1]? = some r := ⟨a[N - 1], List.getElem?_eq_getElem hlast⟩
  have hsw1 : swap a pi ((N : Int) - 1) = some ((a.set q y).set (N - 1) x0) :=
    swap_eq a pi _ q (N - 1) x0 y hpi (by omega) hx0 hy
  have hget1 := fun k => getElem?_swapped a q (N - 1) k x0 y hx0 hy
  have hpv1 : ((a.set q y).set (N - 1) x0)[N - 1]? = some x0 := by
    rw [hget1]
    simp
  obtain ⟨a2, p, hrun, _, hp2, hperm2, hlen2, hframe2, hl2, hh2⟩ :=
    pivotLoop_spec N x0 (N - 1) (2 * (N : Int).toNat + 1) ((a.set q y).set (N - 1) x0)
      0 (N - 1) 0 ((N : Int) - 2) rfl (by omega) (by omega) (by omega) (by simpa using hN)
      (by simp) hpv1
      (by
        intro k x hk
        omega)
      (by
        intro k x hk hkN
        omega)
  have hlen2' : a2.length = a.length := by simpa using hlen2
  have hpv2 : a2[N - 1]? = some x0 := by
    rw [hframe2 (N - 1) (by omega)]
    exact hpv1
  have hplt : p < a2.length := by omega
  obtain ⟨z, hz⟩ : ∃ r, a2[p]? = some r := ⟨a2[p], List.getElem?_eq_getElem hplt⟩
  have hsw2 : swap a2 (p : Int) ((N : Int) - 1) = some ((a2.set p x0).set (N - 1) z) :=
    swap_eq a2 _ _ p (N - 1) z x0 rfl (by omega) hz hpv2
  have hget2 := fun k => getElem?_swapped a2 p (N - 1) k z x0 hz hpv2
  refine ⟨(a2.set p x0).set (N - 1) z, p, ?_, by omega, ?_, by simpa using hlen2', ?_, ?_,
    ?_, ?_⟩
  · simp only [pivot, hsw1, hrun, hsw2]
  · exact ((swapped_perm a2 p (N - 1) z x0 hz hpv2).trans hperm2).trans
      (swapped_perm a q (N - 1) x0 y hx0 hy)
  · intro k hk
    rw [hget2, if_neg (by omega), if_neg (by omega), hframe2 k (by omega), hget1,
      if_neg (by omega), if_neg (by omega)]
  · rw [hget2]
    by_cases hpN : p = N - 1
    · rw [if_pos hpN]
      rw [hpN] at hz
      rw [← hz, hpv2]
    · rw [if_neg hpN, if_pos rfl]
  · intro k x hk hx
    rw [hget2, if_neg (by omega), if_neg (by omega)] at hx
    exact hl2 k x hk hx
  · intro k x hk hkN hx
    rw [hget2] at hx
    by_cases hkl : k = N - 1
    · rw [if_pos hkl] at hx
      cases hx
      exact hh2 p _ (le_refl _) (by omega) hz
    · rw [if_neg hkl, if_neg (by omega)] at hx
      exact hh2 k x (by omega) (by omega) hx

/-! ### List surgery used for the recursion of `qsort` -/

theorem take_split_at (a : List RestDist) (p N : Nat) (x0 : RestDist) (hp : p < N)
    (hx : a[p]? = some x0) :
    a.take N = a.take p ++ x0 :: (a.drop (p + 1)).take (N - (p + 1)) := by
  obtain ⟨hlt, hxe⟩ := List.getElem?_eq_some_iff.mp hx
  have h1 : a = a.take p ++ x0 :: a.drop (p + 1) := by
    rw [← hxe, ← List.drop_eq_getElem_cons hlt, List.take_append_drop]
  have hlen : (a.take p).length = p := by
    rw [List.length_take]
    omega
  conv_lhs => rw [h1]
  rw [List.take_append_eq_append_take, hlen, List.take_take]
  have h2 : N - p = (N - (p + 1)) + 1 := by omega
  rw [h2, List.take_succ_cons, Nat.min_eq_right (by omega)]

theorem drop_eq_of_frame (a b : List RestDist) (N : Nat)
    (h : ∀ k, N ≤ k → a[k]? = b[k]?) : a.drop N = b.drop N := by
  apply List.ext_getElem?
  intro k
  rw [List.getElem?_drop, List.getElem?_drop]
  exact h (N + k) (by omega)

theorem getElem?_of_drop_eq (a b : List RestDist) (p k : Nat) (h : a.drop p = b.drop p)
    (hk : p ≤ k) : a[k]? = b[k]? := by
  have h1 := congrArg (fun l => l[k - p]?) h
  simp only [List.getElem?_drop] at h1
  rwa [show p + (k - p) = k by omega] at h1

theorem take_perm_of_drop_eq (a b : List RestDist) (N : Nat) (hperm : a.Perm b)
    (h : a.drop N = b.drop N) : (a.take N).Perm (b.take N) := by
  have h1 : (a.take N ++ a.drop N).Perm (b.take N ++ b.drop N) := by
    rw [List.take_append_drop, List.take_append_drop]
    exact hperm
  rw [h] at h1
  exact (List.perm_append_right_iff _).mp h1

theorem mem_take_index (a : List RestDist) (p : Nat) (x : RestDist) (h : x ∈ a.take p) :
    ∃ k, k < p ∧ a[k]? = some x := by
  obtain ⟨k, hk⟩ := List.mem_iff_getElem?.mp h
  rw [List.getElem?_take] at hk
  by_cases hkp : k < p
  · rw [if_pos hkp] at hk
    exact ⟨k, hkp, hk⟩
  · rw [if_neg hkp] at hk
    cases hk

theorem mem_drop_take_index (a : List RestDist) (p M : Nat) (x : RestDist)
    (h : x ∈ (a.drop (p + 1)).take M) :
    ∃ k, p < k ∧ k < p + 1 + M ∧ a[k]? = some x := by
  obtain ⟨j, hj, hx⟩ := mem_take_index _ M x h
  rw [List.getElem?_drop] at hx
  exact ⟨p + 1 + j, by omega, by omega, hx⟩

/-! ### `qsort` -/

theorem qsortFuel_spec :
    ∀ (fuel : Nat) (a : List RestDist) (N : Nat) (n : Int), n = N → N ≤ a.length →
      N < fuel →
      ∃ out, qsortFuel fuel a n = some out ∧ out.length = a.length ∧
        out.drop N = a.drop N ∧ (out.take N).Perm (a.take N) ∧
        (out.take N).Pairwise (fun x y => x.dist ≤ y.dist) := by
  intro fuel
  induction fuel with
  | zero =>
    intro a N n _ _ hf
    omega
  | succ fuel ih =>
    intro a N n hn hN hf
    subst hn
    by_cases h0 : N = 0
    · subst h0
      refine ⟨a, ?_, rfl, rfl, List.Perm.refl _, ?_⟩
      · simp [qsortFuel]
      · simp
    · have hn1 : ¬ ((N : Int) < 1) := by omega
      have hq : N / 2 < N := by omega
      have hpi : Int.tdiv (N : Int) 2 = ((N / 2 : Nat) : Int) := by
        rw [Int.tdiv_eq_ediv (by omega) (by decide)]
        omega
      have hqlt : N / 2 < a.length := by omega
      obtain ⟨a1, p, hpiv, hpN, hperm1, hlen1, hframe1, hx0, hlow, hhigh⟩ :=
        pivot_spec a N (N / 2) N (Int.tdiv (N : Int) 2) a[N / 2] rfl hpi hq hN
          (List.getElem?_eq_getElem hqlt)
      obtain ⟨a2, hrun2, hlen2, hdrop2, hperm2, hsort2⟩ :=
        ih a1 p p rfl (by omega) (by omega)
      have hM : (N : Int) - ((p : Int) + 1) = ((N - (p + 1) : Nat) : Int) := by omega
      have hp1 : ((p : Int) + 1).toNat = p + 1 := by omega
      obtain ⟨tail, hrun3, hlen3, hdrop3, hperm3, hsort3⟩ :=
        ih (a2.drop (p + 1)) (N - (p + 1)) ((N : Int) - ((p : Int) + 1)) hM
          (by rw [List.length_drop]; omega) (by omega)
      have hb : a2.drop (p + 1) = a1.drop (p + 1) := by
        have := congrArg (List.drop 1) hdrop2
        simpa [List.drop_drop, Nat.add_comm] using this
      have ha2p : a2[p]? = some a[N / 2] := by
        rw [getElem?_of_drop_eq a2 a1 p p hdrop2 (le_refl _)]
        exact hx0
      have htk : a2.take (p + 1) = a2.take p ++ [a[N / 2]] := by
        rw [List.take_succ, ha2p]
        rfl
      have hlenk : (a2.take (p + 1)).length = p + 1 := by
        rw [List.length_take]
        omega
      have hdropa1 : a1.drop N = a.drop N := drop_eq_of_frame a1 a N hframe1
      refine ⟨a2.take (p + 1) ++ tail, ?_, ?_, ?_, ?_, ?_⟩
      · rw [qsortFuel, if_neg hn1]
        simp only [hpiv, hrun2, hp1, hrun3]
      · rw [List.length_append, hlenk, hlen3, List.length_drop]
        omega
      · rw [List.drop_append_eq_append_drop, hlenk, hdrop3, hb, List.drop_drop,
          List.drop_of_length_le (by omega), List.nil_append,
          show p + 1 + (N - (p + 1)) = N by omega]
        exact hdropa1
      · rw [List.take_append_eq_append_take, hlenk, List.take_of_length_le (by omega), htk]
        refine List.Perm.trans ?_ (take_perm_of_drop_eq a1 a N hperm1 hdropa1)
        rw [take_split_at a1 p N a[N / 2] hpN hx0, List.append_assoc, List.singleton_append]
        refine List.Perm.append hperm2 (List.Perm.cons _ ?_)
        rw [← hb]
        exact hperm3
      · rw [List.take_append_eq_append_take, hlenk, List.take_of_length_le (by omega), htk,
          List.append_assoc, List.singleton_append]
        rw [List.pairwise_append]
        refine ⟨hsort2, ?_, ?_⟩
        · rw [List.pairwise_cons]
          refine ⟨?_, hsort3⟩
          intro y hy
          have hy' : y ∈ (a1.drop (p + 1)).take (N - (p + 1)) := by
            rw [← hb]
            exact hperm3.subset hy
          obtain ⟨k, hk1, hk2, hk3⟩ := mem_drop_take_index a1 p _ y hy'
          exact le_of_lt (hhigh k y hk1 (by omega) hk3)
        · intro x hx y hy
          obtain ⟨k, hk1, hk2⟩ := mem_take_index a1 p x (hperm2.subset hx)
          have hxle := hlow k x hk1 hk2
          rcases List.mem_cons.mp hy with rfl | hy2
          · exact hxle
          · have hy' : y ∈ (a1.drop (p + 1)).take (N - (p + 1)) := by
              rw [← hb]
              exact hperm3.subset hy2
            obtain ⟨j, hj1, hj2, hj3⟩ := mem_drop_take_index a1 p _ y hy'
            exact le_trans hxle (le_of_lt (hhigh j y hj1 (by omega) hj3))

/-! ### Lemmas on the navigator -/

theorem half_cursor : Int.tdiv CURSOR_SIZE 2 = 4 := by decide

theorem half_width : Int.tdiv DISP_WIDTH 2 = 136 := by decide

theorem half_height : Int.tdiv DISP_HEIGHT 2 = 120 := by decide

theorem disp_width_eq : DISP_WIDTH = 272 := by decide

theorem disp_height_eq : DISP_HEIGHT = 240 := by decide

theorem constrain_range (x lo hi : Int) (h : lo ≤ hi) :
    lo ≤ constrain x lo hi ∧ constrain x lo hi ≤ hi := by
  unfold constrain
  split
  · omega
  · split <;> omega

theorem constrain_eq_max_min (x lo hi : Int) (h : lo ≤ hi) :
    constrain x lo hi = max lo (min x hi) := by
  unfold constrain
  split
  · omega
  · split <;> omega

theorem SameControl.refl (s : NavState) : SameControl s s :=
  ⟨rfl, rfl, rfl, rfl, rfl, rfl, rfl, rfl⟩

theorem SameControl.trans {s t u : NavState} (h1 : SameControl s t) (h2 : SameControl t u) :
    SameControl s u := by
  obtain ⟨a1, a2, a3, a4, a5, a6, a7, a8⟩ := h1
  obtain ⟨b1, b2, b3, b4, b5, b6, b7, b8⟩ := h2
  exact ⟨b1.trans a1, b2.trans a2, b3.trans a3, b4.trans a4, b5.trans a5, b6.trans a6,
    b7.trans a7, b8.trans a8⟩

theorem printRestaurant_same (i : Int) (s : NavState) : SameControl s (printRestaurant i s) :=
  ⟨rfl, rfl, rfl, rfl, rfl, rfl, rfl, rfl⟩

theorem foldl_same (f : NavState → Nat → NavState) (hf : ∀ st k, SameControl st (f st k))
    (l : List Nat) : ∀ s, SameControl s (l.foldl f s) := by
  induction l with
  | nil => exact fun s => SameControl.refl s
  | cons k rest ih =>
    intro s
    exact (hf s k).trans (ih (f s k))

theorem printPage_same (s : NavState) : SameControl s (printPage s) := by
  unfold printPage
  refine foldl_same _ ?_ _ _
  intro st k
  show SameControl st (if REST_DISP_NUM * s.pageNum + (k : Int) < st.numOfRestaurants then
    printRestaurant (REST_DISP_NUM * s.pageNum + (k : Int)) st else st)
  split
  · exact printRestaurant_same _ st
  · exact SameControl.refl st

theorem beginMode1_view (rank : MapView → Int → Int) (s : NavState) :
    (beginMode1 rank s).curView = s.curView := by
  unfold beginMode1
  have h := foldl_same (fun (st : NavState) (i : Nat) => printRestaurant (i : Int) st)
    (fun st k => printRestaurant_same _ st) (List.range REST_DISP_NUM.toNat)
    { s with numOfRestaurants := rank s.curView (5 - s.previousRatingSelection),
             selectedRest := 0 }
  exact h.2.2.2.2.2.1

/-- The four components of the result of `checkRedrawMap`, case by case. -/
theorem checkRedrawMap_mapX (MAPWIDTH MAPHEIGHT : Int) (mv : MapView) :
    (checkRedrawMap MAPWIDTH MAPHEIGHT mv).mapX =
      if mv.cursorX = 267 ∧ mv.mapX ≠ MAPWIDTH - 272 then
        constrain (mv.mapX + 272) 0 (MAPWIDTH - 272)
      else if mv.cursorX = 4 ∧ mv.mapX ≠ 0 then constrain (mv.mapX - 272) 0 (MAPWIDTH - 272)
      else if (mv.cursorY = 235 ∧ mv.mapY ≠ MAPHEIGHT - 240) ∨ (mv.cursorY = 4 ∧ mv.mapY ≠ 0)
        then constrain mv.mapX 0 (MAPWIDTH - 272)
      else mv.mapX := by
  simp only [checkRedrawMap, half_cursor, half_width, half_height]
  simp only [disp_width_eq, disp_height_eq]
  split_ifs <;> simp_all
  all_goals omega

theorem checkRedrawMap_mapY (MAPWIDTH MAPHEIGHT : Int) (mv : MapView) :
    (checkRedrawMap MAPWIDTH MAPHEIGHT mv).mapY =
      if mv.cursorY = 235 ∧ mv.mapY ≠ MAPHEIGHT - 240 then
        constrain (mv.mapY + 240) 0 (MAPHEIGHT - 240)
      else if mv.cursorY = 4 ∧ mv.mapY ≠ 0 then constrain (mv.mapY - 240) 0 (MAPHEIGHT - 240)
      else if (mv.cursorX = 267 ∧ mv.mapX ≠ MAPWIDTH - 272) ∨ (mv.cursorX = 4 ∧ mv.mapX ≠ 0)
        then constrain mv.mapY 0 (MAPHEIGHT - 240)
      else mv.mapY := by
  simp only [checkRedrawMap, half_cursor, half_width, half_height]
  simp only [disp_width_eq, disp_height_eq]
  split_ifs <;> simp_all
  all_goals omega

theorem checkRedrawMap_cursorX (MAPWIDTH MAPHEIGHT : Int) (mv : MapView) :
    (checkRedrawMap MAPWIDTH MAPHEIGHT mv).cursorX =
      if (mv.cursorX = 267 ∧ mv.mapX ≠ MAPWIDTH - 272) ∨ (mv.cursorX = 4 ∧ mv.mapX ≠ 0)
        then 136
      else mv.cursorX := by
  simp only [checkRedrawMap, half_cursor, half_width, half_height]
  simp only [disp_width_eq, disp_height_eq]
  split_ifs <;> simp_all
  all_goals omega

theorem checkRedrawMap_cursorY (MAPWIDTH MAPHEIGHT : Int) (mv : MapView) :
    (checkRedrawMap MAPWIDTH MAPHEIGHT mv).cursorY =
      if (mv.cursorY = 235 ∧ mv.mapY ≠ MAPHEIGHT - 240) ∨ (mv.cursorY = 4 ∧ mv.mapY ≠ 0)
        then 120
      else mv.cursorY := by
  simp only [checkRedrawMap, half_cursor, half_width, half_height]
  simp only [disp_width_eq, disp_height_eq]
  split_ifs <;> simp_all
  all_goals omega

theorem checkRedrawMap_inv (MAPWIDTH MAPHEIGHT : Int) (hW : DISP_WIDTH ≤ MAPWIDTH)
    (hH : DISP_HEIGHT ≤ MAPHEIGHT) (mv : MapView) (h : ViewInv MAPWIDTH MAPHEIGHT mv) :
    ViewInv MAPWIDTH MAPHEIGHT (checkRedrawMap MAPWIDTH MAPHEIGHT mv) := by
  rw [disp_width_eq] at hW
  rw [disp_height_eq] at hH
  simp only [ViewInv, half_cursor] at h ⊢
  simp only [disp_width_eq, disp_height_eq] at h ⊢
  obtain ⟨h1, h2, h3, h4, h5, h6, h7, h8⟩ := h
  have cx := fun x => constrain_range x 0 (MAPWIDTH - 272) (by omega)
  have cy := fun y => constrain_range y 0 (MAPHEIGHT - 240) (by omega)
  rw [checkRedrawMap_mapX, checkRedrawMap_mapY, checkRedrawMap_cursorX,
    checkRedrawMap_cursorY]
  refine ⟨?_, ?_, ?_, ?_, ?_, ?_, ?_, ?_⟩ <;> split_ifs <;>
    first
      | omega
      | exact (cx _).1
      | exact (cx _).2
      | exact (cy _).1
      | exact (cy _).2

theorem viewInv_cursorY (MAPWIDTH MAPHEIGHT : Int) (mv : MapView) (y : Int)
    (h : ViewInv MAPWIDTH MAPHEIGHT mv) (c : Int)
    (hc : c = constrain y (Int.tdiv CURSOR_SIZE 2) (DISP_HEIGHT - Int.tdiv CURSOR_SIZE 2 - 1)) :
    ViewInv MAPWIDTH MAPHEIGHT { mv with cursorY := c } := by
  obtain ⟨h1, h2, h3, h4, h5, h6, _, _⟩ := h
  have hr := constrain_range y (Int.tdiv CURSOR_SIZE 2)
    (DISP_HEIGHT - Int.tdiv CURSOR_SIZE 2 - 1) (by decide)
  rw [← hc] at hr
  exact ⟨h1, h2, h3, h4, h5, h6, hr.1, hr.2⟩

theorem viewInv_cursorX (MAPWIDTH MAPHEIGHT : Int) (mv : MapView) (x : Int)
    (h : ViewInv MAPWIDTH MAPHEIGHT mv) (c : Int)
    (hc : c = constrain x (Int.tdiv CURSOR_SIZE 2) (DISP_WIDTH - Int.tdiv CURSOR_SIZE 2 - 1)) :
    ViewInv MAPWIDTH MAPHEIGHT { mv with cursorX := c } := by
  obtain ⟨h1, h2, h3, h4, _, _, h7, h8⟩ := h
  have hr := constrain_range x (Int.tdiv CURSOR_SIZE 2)
    (DISP_WIDTH - Int.tdiv CURSOR_SIZE 2 - 1) (by decide)
  rw [← hc] at hr
  exact ⟨h1, h2, h3, h4, hr.1, hr.2, h7, h8⟩

theorem moveCursorStep_inv (MAPWIDTH MAPHEIGHT : Int) (hW : DISP_WIDTH ≤ MAPWIDTH)
    (hH : DISP_HEIGHT ≤ MAPHEIGHT) (v h : Int) (s : NavState)
    (hs : ViewInv MAPWIDTH MAPHEIGHT s.curView) :
    ViewInv MAPWIDTH MAPHEIGHT (moveCursorStep MAPWIDTH MAPHEIGHT v h s).curView := by
  have hy := fun y => viewInv_cursorY MAPWIDTH MAPHEIGHT s.curView y hs _ rfl
  have hx := fun (mv : MapView) (hmv : ViewInv MAPWIDTH MAPHEIGHT mv) x =>
    viewInv_cursorX MAPWIDTH MAPHEIGHT mv x hmv _ rfl
  have hr := checkRedrawMap_inv MAPWIDTH MAPHEIGHT hW hH
  by_cases hv : abs (v - JOY_CENTRE) > JOY_DEADZONE <;>
    by_cases hh : abs (h - JOY_CENTRE) > JOY_DEADZONE <;>
    simp only [moveCursorStep, hv, hh, if_true, if_false] <;>
    split_ifs <;>
    first
      | exact hs
      | exact hy _
      | exact hx _ hs _
      | exact hx _ (hy _) _
      | exact hr _ hs
      | exact hr _ (hy _)
      | exact hr _ (hx _ hs _)
      | exact hr _ (hx _ (hy _) _)

theorem setup_inv (MAPWIDTH MAPHEIGHT : Int) (hW : DISP_WIDTH ≤ MAPWIDTH)
    (hH : DISP_HEIGHT ≤ MAPHEIGHT) :
    ViewInv MAPWIDTH MAPHEIGHT (setup MAPWIDTH MAPHEIGHT).curView := by
  rw [disp_width_eq] at hW
  rw [disp_height_eq] at hH
  simp only [setup, beginMode0, ViewInv, half_cursor, half_width, half_height]
  simp only [disp_width_eq, disp_height_eq]
  rw [Int.tdiv_eq_ediv (a := MAPWIDTH) (by omega) (by decide),
    Int.tdiv_eq_ediv (a := MAPHEIGHT) (by omega) (by decide),
    Int.tdiv_eq_ediv (a := MAPWIDTH / 272) (by omega) (by decide),
    Int.tdiv_eq_ediv (a := MAPHEIGHT / 240) (by omega) (by decide)]
  omega

theorem loadNextPage_same (s : NavState) :
    SameControl { s with pageNum := s.pageNum + 1 } (loadNextPage s) :=
  printPage_same _

theorem loadPreviousPage_same (s : NavState) :
    SameControl { s with pageNum := s.pageNum - 1 } (loadPreviousPage s) :=
  printPage_same _

theorem turnPage_fields (s : NavState) :
    (turnPage s).selectedRest = s.selectedRest ∧
      (turnPage s).numOfRestaurants = s.numOfRestaurants ∧
      (turnPage s).curView = s.curView ∧ (turnPage s).preView = s.preView ∧
      (turnPage s).mode = s.mode ∧ (turnPage s).lookedUp = s.lookedUp := by
  unfold turnPage
  split_ifs
  · obtain ⟨a1, a2, _, _, a5, a6, a7, a8⟩ := loadNextPage_same s
    exact ⟨a1, a5, a6, a7, a2, a8⟩
  · obtain ⟨a1, a2, _, _, a5, a6, a7, a8⟩ := loadPreviousPage_same s
    exact ⟨a1, a5, a6, a7, a2, a8⟩
  · exact ⟨rfl, rfl, rfl, rfl, rfl, rfl⟩

theorem nudgeSelection_fields (v : Int) (s : NavState) :
    (nudgeSelection v s).selectedRest =
        s.selectedRest + (if v > JOY_CENTRE + JOY_DEADZONE then 1
          else if v < JOY_CENTRE - JOY_DEADZONE then -1 else 0) ∧
      (nudgeSelection v s).numOfRestaurants = s.numOfRestaurants ∧
      (nudgeSelection v s).curView = s.curView ∧ (nudgeSelection v s).preView = s.preView ∧
      (nudgeSelection v s).mode = s.mode ∧ (nudgeSelection v s).lookedUp = s.lookedUp := by
  unfold nudgeSelection
  split_ifs
  · exact ⟨rfl, rfl, rfl, rfl, rfl, rfl⟩
  · exact ⟨rfl, rfl, rfl, rfl, rfl, rfl⟩
  · exact ⟨(Int.add_zero _).symm, rfl, rfl, rfl, rfl, rfl⟩

theorem printTwo_same (c : Prop) [Decidable c] (a b : Int) (t : NavState) :
    SameControl t (if c then printRestaurant a (printRestaurant b t) else t) := by
  split
  · exact ⟨rfl, rfl, rfl, rfl, rfl, rfl, rfl, rfl⟩
  · exact SameControl.refl t

/-- What `moveSelection` does to the fields other than `pageNum` and
`printed`. -/
theorem moveSelection_fields (v : Int) (s : NavState) :
    (moveSelection v s).selectedRest =
        constrain
          (s.selectedRest + (if v > JOY_CENTRE + JOY_DEADZONE then 1
            else if v < JOY_CENTRE - JOY_DEADZONE then -1 else 0))
          0 (s.numOfRestaurants - 1) ∧
      (moveSelection v s).numOfRestaurants = s.numOfRestaurants ∧
      (moveSelection v s).curView = s.curView ∧
      (moveSelection v s).preView = s.preView ∧
      (moveSelection v s).mode = s.mode ∧
      (moveSelection v s).lookedUp = s.lookedUp := by
  obtain ⟨n1, n2, n3, n4, n5, n6⟩ := nudgeSelection_fields v s
  obtain ⟨t1, t2, t3, t4, t5, t6⟩ := turnPage_fields (nudgeSelection v s)
  have hk : SameControl
      { turnPage (nudgeSelection v s) with
        selectedRest := constrain (turnPage (nudgeSelection v s)).selectedRest 0
          ((turnPage (nudgeSelection v s)).numOfRestaurants - 1) }
      (moveSelection v s) := printTwo_same _ _ _ _
  obtain ⟨k1, k2, _, _, k5, k6, k7, k8⟩ := hk
  refine ⟨?_, k5.trans (t2.trans n2), k6.trans (t3.trans n3), k7.trans (t4.trans n4),
    k2.trans (t5.trans n5), k8.trans (t6.trans n6)⟩
  rw [k1]
  show constrain _ _ _ = _
  rw [t1, t2, n1, n2]

/-! ### C3: `qsort` sorts -/

/-- C3. For every array and every `n ≥ 0` not larger than the array, the call
`qsort(restaurants, n)` returns, leaves the first `n` entries in non-decreasing
order of `dist`, these entries are a permutation of the first `n` input
entries, and the entries behind them are untouched. -/
theorem qsort_sorted_perm (restaurants : List RestDist) (n : Nat)
    (hn : n ≤ restaurants.length) :
    ∃ out, qsort restaurants (n : Int) = some out ∧ out.length = restaurants.length ∧
      (out.take n).Pairwise (fun x y => x.dist ≤ y.dist) ∧
      (out.take n).Perm (restaurants.take n) ∧ out.drop n = restaurants.drop n := by
  obtain ⟨out, h1, h2, h3, h4, h5⟩ :=
    qsortFuel_spec (n + 1) restaurants n (n : Int) rfl hn (Nat.lt_succ_self n)
  refine ⟨out, ?_, h2, h5, h4, h3⟩
  unfold qsort
  rw [Int.toNat_ofNat]
  exact h1

/-- Witness of C3: an array of four entries of which the first three are
sorted. -/
theorem qsort_sorted_perm_witness :
    3 ≤ ([⟨0, 50⟩, ⟨1, 10⟩, ⟨2, 30⟩, ⟨3, 5⟩] : List RestDist).length ∧
    ∃ out, qsort [⟨0, 50⟩, ⟨1, 10⟩, ⟨2, 30⟩, ⟨3, 5⟩] ((3 : Nat) : Int) = some out ∧
      out.length = ([⟨0, 50⟩, ⟨1, 10⟩, ⟨2, 30⟩, ⟨3, 5⟩] : List RestDist).length ∧
      (out.take 3).Pairwise (fun x y => x.dist ≤ y.dist) ∧
      (out.take 3).Perm (([⟨0, 50⟩, ⟨1, 10⟩, ⟨2, 30⟩, ⟨3, 5⟩] : List RestDist).take 3) ∧
      out.drop 3 = ([⟨0, 50⟩, ⟨1, 10⟩, ⟨2, 30⟩, ⟨3, 5⟩] : List RestDist).drop 3 :=
  ⟨by decide, qsort_sorted_perm [⟨0, 50⟩, ⟨1, 10⟩, ⟨2, 30⟩, ⟨3, 5⟩] 3 (by decide)⟩

/-! ### C2: the ranking pass and the rating filter -/

/-- C2, the code at the scenario of the claim.  Three records at distances
50, 10 and 30 with ratings 4, 2 and 5: `getAndSortRestaurants` of
restaurant.cpp takes no rating threshold and returns no count, and its output
holds all three indices, index 1 (rating 2, below the threshold 3 of the
scenario) in front. -/
theorem getAndSortRestaurants_keeps_low_rating :
    (getAndSortRestaurants (fun x => x) (fun y => y) 3 scenarioView
        (List.replicate 3 default) scenarioCard startupCache).map Prod.fst
      = some [⟨1, 10⟩, ⟨2, 30⟩, ⟨0, 50⟩] ∧
    (storedRecord scenarioCard 1).rating = 2 := by
  decide

/-! ### C4: the viewport invariant -/

theorem selectRestaurant_inv (lon_to_x lat_to_y : Int → Int) (MAPWIDTH MAPHEIGHT : Int)
    (hW : DISP_WIDTH ≤ MAPWIDTH) (hH : DISP_HEIGHT ≤ MAPHEIGHT) (r : restaurant)
    (s : NavState) :
    ViewInv MAPWIDTH MAPHEIGHT
      (selectRestaurant lon_to_x lat_to_y MAPWIDTH MAPHEIGHT r s).curView := by
  have hx := constrain_range (lon_to_x r.lon - Int.tdiv DISP_WIDTH 2) 0 (MAPWIDTH - DISP_WIDTH)
    (by omega)
  have hy := constrain_range (lat_to_y r.lat - Int.tdiv DISP_HEIGHT 2) 0
    (MAPHEIGHT - DISP_HEIGHT) (by omega)
  have hcx := fun x => constrain_range x (Int.tdiv CURSOR_SIZE 2)
    (DISP_WIDTH - Int.tdiv CURSOR_SIZE 2 - 1) (by decide)
  have hcy := fun y => constrain_range y (Int.tdiv CURSOR_SIZE 2)
    (DISP_HEIGHT - Int.tdiv CURSOR_SIZE 2 - 1) (by decide)
  exact ⟨hx.1, hx.2, hy.1, hy.2, (hcx _).1, (hcx _).2, (hcy _).1, (hcy _).2⟩

/-- C4. If the map is at least as large as the window, every state reached
from `setup()` by `scrollingMap` steps (any joystick readings, button pressed
or not) and `scrollingMenu` steps (any reading, any selected record) has its
window on the map, `0 ≤ mapX ≤ MAPWIDTH − DISP_WIDTH` and
`0 ≤ mapY ≤ MAPHEIGHT − DISP_HEIGHT`, and its cursor within
`CURSOR_SIZE/2 .. DISP_WIDTH − CURSOR_SIZE/2 − 1` horizontally and
`CURSOR_SIZE/2 .. DISP_HEIGHT − CURSOR_SIZE/2 − 1` vertically. -/
theorem viewport_invariant (lon_to_x lat_to_y : Int → Int) (rank : MapView → Int → Int)
    (MAPWIDTH MAPHEIGHT : Int) (hW : DISP_WIDTH ≤ MAPWIDTH) (hH : DISP_HEIGHT ≤ MAPHEIGHT)
    (s : NavState) (hs : Reachable lon_to_x lat_to_y rank MAPWIDTH MAPHEIGHT s) :
    0 ≤ s.curView.mapX ∧ s.curView.mapX ≤ MAPWIDTH - DISP_WIDTH ∧
    0 ≤ s.curView.mapY ∧ s.curView.mapY ≤ MAPHEIGHT - DISP_HEIGHT ∧
    Int.tdiv CURSOR_SIZE 2 ≤ s.curView.cursorX ∧
    s.curView.cursorX ≤ DISP_WIDTH - Int.tdiv CURSOR_SIZE 2 - 1 ∧
    Int.tdiv CURSOR_SIZE 2 ≤ s.curView.cursorY ∧
    s.curView.cursorY ≤ DISP_HEIGHT - Int.tdiv CURSOR_SIZE 2 - 1 := by
  show ViewInv MAPWIDTH MAPHEIGHT s.curView
  induction hs with
  | start => exact setup_inv MAPWIDTH MAPHEIGHT hW hH
  | browse s v h invSelect _ ih =>
    have hm := moveCursorStep_inv MAPWIDTH MAPHEIGHT hW hH v h s ih
    unfold scrollingMap
    by_cases hc : invSelect = LOW
    · simp only [hc, if_true]
      show ViewInv MAPWIDTH MAPHEIGHT (beginMode1 rank _).curView
      rw [beginMode1_view]
      exact hm
    · simp only [hc, if_false]
      exact hm
  | list s v sel r _ ih =>
    unfold scrollingMenu
    by_cases hc : sel = LOW
    · simp only [hc, if_true]
      exact selectRestaurant_inv lon_to_x lat_to_y MAPWIDTH MAPHEIGHT hW hH r _
    · simp only [hc, if_false]
      rw [(moveSelection_fields v s).2.2.1]
      exact ih

/-- Witness of C4: a 2048 by 2048 map, and the state after one BROWSE step
with the joystick pushed fully to one corner. -/
theorem viewport_invariant_witness :
    (DISP_WIDTH ≤ 2048 ∧ DISP_HEIGHT ≤ 2048 ∧
      Reachable (fun x => x) (fun y => y) (fun _ _ => 40) 2048 2048
        (scrollingMap (fun _ _ => 40) 2048 2048 1023 0 1 (setup 2048 2048))) ∧
    (0 ≤ (scrollingMap (fun _ _ => 40) 2048 2048 1023 0 1 (setup 2048 2048)).curView.mapX ∧
    (scrollingMap (fun _ _ => 40) 2048 2048 1023 0 1 (setup 2048 2048)).curView.mapX
      ≤ 2048 - DISP_WIDTH ∧
    0 ≤ (scrollingMap (fun _ _ => 40) 2048 2048 1023 0 1 (setup 2048 2048)).curView.mapY ∧
    (scrollingMap (fun _ _ => 40) 2048 2048 1023 0 1 (setup 2048 2048)).curView.mapY
      ≤ 2048 - DISP_HEIGHT ∧
    Int.tdiv CURSOR_SIZE 2
      ≤ (scrollingMap (fun _ _ => 40) 2048 2048 1023 0 1 (setup 2048 2048)).curView.cursorX ∧
    (scrollingMap (fun _ _ => 40) 2048 2048 1023 0 1 (setup 2048 2048)).curView.cursorX
      ≤ DISP_WIDTH - Int.tdiv CURSOR_SIZE 2 - 1 ∧
    Int.tdiv CURSOR_SIZE 2
      ≤ (scrollingMap (fun _ _ => 40) 2048 2048 1023 0 1 (setup 2048 2048)).curView.cursorY ∧
    (scrollingMap (fun _ _ => 40) 2048 2048 1023 0 1 (setup 2048 2048)).curView.cursorY
      ≤ DISP_HEIGHT - Int.tdiv CURSOR_SIZE 2 - 1) :=
  ⟨⟨by decide, by decide, Reachable.browse _ 1023 0 1 Reachable.start⟩,
    viewport_invariant (fun x => x) (fun y => y) (fun _ _ => 40) 2048 2048 (by decide)
      (by decide) _ (Reachable.browse _ 1023 0 1 Reachable.start)⟩

/-! ### C6 and C7: entering LIST -/

/-- C6, the code when the ranking query finds no candidate.  After the click
in BROWSE `numOfRestaurants` is 0 and still `beginMode1` has called
`printRestaurant` for the positions 0 to 29; the following `scrollingMenu`
step, joystick at rest and button released, moves the highlight from 0 to −1
and calls `printRestaurant(0)` and `printRestaurant(-1)`. -/
theorem empty_list_is_indexed :
    emptyListState.numOfRestaurants = 0 ∧
    emptyListState.printed = (List.range 30).map (fun (i : Nat) => (i : Int)) ∧
    (scrollingMenu (fun x => x) (fun y => y) 2048 2048 512 1 default
      emptyListState).selectedRest = -1 ∧
    (scrollingMenu (fun x => x) (fun y => y) 2048 2048 512 1 default emptyListState).printed
      = emptyListState.printed ++ [0, -1] := by
  decide

/-- C7, the code at a click in BROWSE that follows a LIST session which ended
on page 1.  The click sets `mode = 1`, `selectedRest = 0` and stores the
count, but `pageNum` keeps the value 1 of the earlier session. -/
theorem beginMode1_keeps_page :
    afterListSession.mode = 0 ∧ afterListSession.pageNum = 1 ∧
    (scrollingMap (fun _ _ => 40) 2048 2048 512 512 LOW afterListSession).mode = 1 ∧
    (scrollingMap (fun _ _ => 40) 2048 2048 512 512 LOW afterListSession).selectedRest = 0 ∧
    (scrollingMap (fun _ _ => 40) 2048 2048 512 512 LOW afterListSession).numOfRestaurants
      = 40 ∧
    (scrollingMap (fun _ _ => 40) 2048 2048 512 512 LOW afterListSession).pageNum = 1 := by
  decide

/-! ### C8: the nudge scroll -/

/-- C8. On a view that satisfies the viewport invariant, `checkRedrawMap`
scrolls by one full window: with the cursor on the right clamp border and the
window not yet at the right end of the map the new `mapX` is
`min(mapX + DISP_WIDTH, MAPWIDTH − DISP_WIDTH)`, with the cursor on the left
border and the window not at the left end it is `max(mapX − DISP_WIDTH, 0)`,
and in both cases `cursorX` becomes `DISP_WIDTH/2`; the vertical axis does the
same with the HEIGHT constants.  In particular, from `mapX = 0` the window
moves right by `DISP_WIDTH`, or up to the end of a map narrower than two
windows. -/
theorem checkRedrawMap_nudge (MAPWIDTH MAPHEIGHT : Int) (mv : MapView)
    (h : ViewInv MAPWIDTH MAPHEIGHT mv) :
    (mv.cursorX = DISP_WIDTH - Int.tdiv CURSOR_SIZE 2 - 1 → mv.mapX ≠ MAPWIDTH - DISP_WIDTH →
      (checkRedrawMap MAPWIDTH MAPHEIGHT mv).mapX
          = min (mv.mapX + DISP_WIDTH) (MAPWIDTH - DISP_WIDTH) ∧
        (checkRedrawMap MAPWIDTH MAPHEIGHT mv).cursorX = Int.tdiv DISP_WIDTH 2) ∧
    (mv.cursorX = Int.tdiv CURSOR_SIZE 2 → mv.mapX ≠ 0 →
      (checkRedrawMap MAPWIDTH MAPHEIGHT mv).mapX = max (mv.mapX - DISP_WIDTH) 0 ∧
        (checkRedrawMap MAPWIDTH MAPHEIGHT mv).cursorX = Int.tdiv DISP_WIDTH 2) ∧
    (mv.cursorY = DISP_HEIGHT - Int.tdiv CURSOR_SIZE 2 - 1 →
      mv.mapY ≠ MAPHEIGHT - DISP_HEIGHT →
      (checkRedrawMap MAPWIDTH MAPHEIGHT mv).mapY
          = min (mv.mapY + DISP_HEIGHT) (MAPHEIGHT - DISP_HEIGHT) ∧
        (checkRedrawMap MAPWIDTH MAPHEIGHT mv).cursorY = Int.tdiv DISP_HEIGHT 2) ∧
    (mv.cursorY = Int.tdiv CURSOR_SIZE 2 → mv.mapY ≠ 0 →
      (checkRedrawMap MAPWIDTH MAPHEIGHT mv).mapY = max (mv.mapY - DISP_HEIGHT) 0 ∧
        (checkRedrawMap MAPWIDTH MAPHEIGHT mv).cursorY = Int.tdiv DISP_HEIGHT 2) ∧
    (mv.cursorX = DISP_WIDTH - Int.tdiv CURSOR_SIZE 2 - 1 → mv.mapX = 0 →
      MAPWIDTH ≠ DISP_WIDTH →
      (checkRedrawMap MAPWIDTH MAPHEIGHT mv).mapX = min DISP_WIDTH (MAPWIDTH - DISP_WIDTH) ∧
        (2 * DISP_WIDTH ≤ MAPWIDTH → (checkRedrawMap MAPWIDTH MAPHEIGHT mv).mapX = DISP_WIDTH)) := by
  simp only [ViewInv, half_cursor, half_width, half_height] at h ⊢
  simp only [disp_width_eq, disp_height_eq] at h ⊢
  obtain ⟨h1, h2, h3, h4, h5, h6, h7, h8⟩ := h
  rw [checkRedrawMap_mapX, checkRedrawMap_mapY, checkRedrawMap_cursorX,
    checkRedrawMap_cursorY]
  unfold constrain
  refine ⟨?_, ?_, ?_, ?_, ?_⟩
  · intro hc hm
    rw [if_pos ⟨by omega, hm⟩, if_pos (Or.inl ⟨by omega, hm⟩)]
    refine ⟨?_, rfl⟩
    split_ifs <;> omega
  · intro hc hm
    rw [if_neg (by omega), if_pos ⟨hc, hm⟩, if_pos (Or.inr ⟨hc, hm⟩)]
    refine ⟨?_, rfl⟩
    split_ifs <;> omega
  · intro hc hm
    rw [if_pos ⟨by omega, hm⟩, if_pos (Or.inl ⟨by omega, hm⟩)]
    refine ⟨?_, rfl⟩
    split_ifs <;> omega
  · intro hc hm
    rw [if_neg (by omega), if_pos ⟨hc, hm⟩, if_pos (Or.inr ⟨hc, hm⟩)]
    refine ⟨?_, rfl⟩
    split_ifs <;> omega
  · intro hc hm hw
    rw [if_pos ⟨by omega, by omega⟩]
    refine ⟨?_, ?_⟩
    · split_ifs <;> omega
    · intro h2w
      split_ifs <;> omega

/-- Witness of C8: a 2048 by 2048 map and a view at the left map border with
the cursor on the right clamp border. -/
theorem checkRedrawMap_nudge_witness :
    ViewInv 2048 2048 borderView ∧
    (checkRedrawMap 2048 2048 borderView).mapX = DISP_WIDTH ∧
    (checkRedrawMap 2048 2048 borderView).cursorX = Int.tdiv DISP_WIDTH 2 :=
  ⟨by decide,
    ((checkRedrawMap_nudge 2048 2048 borderView (by decide)).2.2.2.2 (by decide) (by decide)
      (by decide)).2 (by decide),
    ((checkRedrawMap_nudge 2048 2048 borderView (by decide)).1 (by decide) (by decide)).2⟩

/-! ### C9: selecting an entry of the list -/

/-- C9. A click in LIST on a record with projected position
`(x, y) = (lon_to_x(lon), lat_to_y(lat))` sets `mode = 0`, sets `mapX` to
`x − DISP_WIDTH/2` constrained to `0 .. MAPWIDTH − DISP_WIDTH` and `mapY` to
`y − DISP_HEIGHT/2` constrained to `0 .. MAPHEIGHT − DISP_HEIGHT` (for a map
at least as large as the window that is `max 0 (min _ _)`), and puts the
cursor on the record: `mapX + cursorX = x` whenever
`CURSOR_SIZE/2 ≤ x ≤ MAPWIDTH − CURSOR_SIZE/2 − 1`, and `mapY + cursorY = y`
whenever `CURSOR_SIZE/2 ≤ y ≤ MAPHEIGHT − CURSOR_SIZE/2 − 1`.  This holds for
every joystick reading and every state, also for positions outside the map. -/
theorem scrollingMenu_click_centres (lon_to_x lat_to_y : Int → Int)
    (MAPWIDTH MAPHEIGHT v : Int) (r : restaurant) (s : NavState) :
    (scrollingMenu lon_to_x lat_to_y MAPWIDTH MAPHEIGHT v LOW r s).mode = 0 ∧
    (scrollingMenu lon_to_x lat_to_y MAPWIDTH MAPHEIGHT v LOW r s).curView.mapX
      = constrain (lon_to_x r.lon - Int.tdiv DISP_WIDTH 2) 0 (MAPWIDTH - DISP_WIDTH) ∧
    (scrollingMenu lon_to_x lat_to_y MAPWIDTH MAPHEIGHT v LOW r s).curView.mapY
      = constrain (lat_to_y r.lat - Int.tdiv DISP_HEIGHT 2) 0 (MAPHEIGHT - DISP_HEIGHT) ∧
    (DISP_WIDTH ≤ MAPWIDTH →
      (scrollingMenu lon_to_x lat_to_y MAPWIDTH MAPHEIGHT v LOW r s).curView.mapX
        = max 0 (min (lon_to_x r.lon - Int.tdiv DISP_WIDTH 2) (MAPWIDTH - DISP_WIDTH))) ∧
    (DISP_HEIGHT ≤ MAPHEIGHT →
      (scrollingMenu lon_to_x lat_to_y MAPWIDTH MAPHEIGHT v LOW r s).curView.mapY
        = max 0 (min (lat_to_y r.lat - Int.tdiv DISP_HEIGHT 2) (MAPHEIGHT - DISP_HEIGHT))) ∧
    (Int.tdiv CURSOR_SIZE 2 ≤ lon_to_x r.lon →
      lon_to_x r.lon ≤ MAPWIDTH - Int.tdiv CURSOR_SIZE 2 - 1 →
      (scrollingMenu lon_to_x lat_to_y MAPWIDTH MAPHEIGHT v LOW r s).curView.mapX
        + (scrollingMenu lon_to_x lat_to_y MAPWIDTH MAPHEIGHT v LOW r s).curView.cursorX
        = lon_to_x r.lon) ∧
    (Int.tdiv CURSOR_SIZE 2 ≤ lat_to_y r.lat →
      lat_to_y r.lat ≤ MAPHEIGHT - Int.tdiv CURSOR_SIZE 2 - 1 →
      (scrollingMenu lon_to_x lat_to_y MAPWIDTH MAPHEIGHT v LOW r s).curView.mapY
        + (scrollingMenu lon_to_x lat_to_y MAPWIDTH MAPHEIGHT v LOW r s).curView.cursorY
        = lat_to_y r.lat) := by
  have hsel : scrollingMenu lon_to_x lat_to_y MAPWIDTH MAPHEIGHT v LOW r s
      = selectRestaurant lon_to_x lat_to_y MAPWIDTH MAPHEIGHT r (moveSelection v s) := by
    simp only [scrollingMenu, if_true]
  rw [hsel]
  generalize moveSelection v s = t
  simp only [selectRestaurant, beginMode0, half_cursor, half_width, half_height]
  simp only [disp_width_eq, disp_height_eq]
  refine ⟨?_, ?_, ?_, ?_, ?_, ?_, ?_⟩
  · trivial
  · trivial
  · trivial
  · intro hW
    exact constrain_eq_max_min _ 0 (MAPWIDTH - 272) (by omega)
  · intro hH
    exact constrain_eq_max_min _ 0 (MAPHEIGHT - 240) (by omega)
  · intro hx0 hx1
    unfold constrain
    split_ifs <;> omega
  · intro hy0 hy1
    unfold constrain
    split_ifs <;> omega

/-- Witness of C9: a 2048 by 2048 map and a record at (900, 700), selected in
the sample LIST state. -/
theorem scrollingMenu_click_centres_witness :
    (scrollingMenu (fun x => x) (fun y => y) 2048 2048 512 LOW ⟨700, 900, 4, "chosen"⟩
      listState).curView.mapX
      + (scrollingMenu (fun x => x) (fun y => y) 2048 2048 512 LOW ⟨700, 900, 4, "chosen"⟩
        listState).curView.cursorX = 900 :=
  (scrollingMenu_click_centres (fun x => x) (fun y => y) 2048 2048 512 ⟨700, 900, 4, "chosen"⟩
    listState).2.2.2.2.2.1 (by decide) (by decide)

/-! ### C10: moving the highlight -/

/-- C10. In a list of at least one candidate with the highlight in
`0 .. count − 1`, one `scrollingMenu` step, for every joystick reading `v`,
every button level and every record, leaves `selectedRest` at
`old + d` clamped to `0 .. count − 1`, where `d` is `+1` for
`v > JOY_CENTRE + JOY_DEADZONE`, `−1` for `v < JOY_CENTRE − JOY_DEADZONE` and
`0` otherwise: the highlight moves by at most one and stays in
`0 .. count − 1`. -/
theorem scrollingMenu_highlight_clamped (lon_to_x lat_to_y : Int → Int)
    (MAPWIDTH MAPHEIGHT v sel : Int) (r : restaurant) (s : NavState)
    (hcount : 1 ≤ s.numOfRestaurants) (h0 : 0 ≤ s.selectedRest)
    (h1 : s.selectedRest ≤ s.numOfRestaurants - 1) :
    (scrollingMenu lon_to_x lat_to_y MAPWIDTH MAPHEIGHT v sel r s).selectedRest
      = max 0 (min
          (s.selectedRest + (if v > JOY_CENTRE + JOY_DEADZONE then 1
            else if v < JOY_CENTRE - JOY_DEADZONE then -1 else 0))
          (s.numOfRestaurants - 1)) ∧
    -1 ≤ (scrollingMenu lon_to_x lat_to_y MAPWIDTH MAPHEIGHT v sel r s).selectedRest
      - s.selectedRest ∧
    (scrollingMenu lon_to_x lat_to_y MAPWIDTH MAPHEIGHT v sel r s).selectedRest
      - s.selectedRest ≤ 1 ∧
    0 ≤ (scrollingMenu lon_to_x lat_to_y MAPWIDTH MAPHEIGHT v sel r s).selectedRest ∧
    (scrollingMenu lon_to_x lat_to_y MAPWIDTH MAPHEIGHT v sel r s).selectedRest
      ≤ s.numOfRestaurants - 1 := by
  have hsel : (scrollingMenu lon_to_x lat_to_y MAPWIDTH MAPHEIGHT v sel r s).selectedRest
      = (moveSelection v s).selectedRest := by
    unfold scrollingMenu
    by_cases hc : sel = LOW
    · simp only [hc, if_true]
      rfl
    · simp only [hc, if_false]
  rw [hsel, (moveSelection_fields v s).1, constrain_eq_max_min _ _ _ (by omega)]
  split_ifs <;> omega

/-- Witness of C10: 40 candidates, highlight on position 29, joystick pushed
down. -/
theorem scrollingMenu_highlight_clamped_witness :
    (1 ≤ listState.numOfRestaurants ∧ 0 ≤ listState.selectedRest ∧
      listState.selectedRest ≤ listState.numOfRestaurants - 1) ∧
    (scrollingMenu (fun x => x) (fun y => y) 2048 2048 1023 1 default listState).selectedRest
      = max 0 (min
          (listState.selectedRest + (if (1023 : Int) > JOY_CENTRE + JOY_DEADZONE then 1
            else if (1023 : Int) < JOY_CENTRE - JOY_DEADZONE then -1 else 0))
          (listState.numOfRestaurants - 1)) :=
  ⟨by decide,
    (scrollingMenu_highlight_clamped (fun x => x) (fun y => y) 2048 2048 1023 1 default
      listState (by decide) (by decide) (by decide)).1⟩

/-! ### C12, C15, C17, C18: more on `pivot` and `qsort` -/

/-- C12. If the first `n` entries of the array are already in non-decreasing
order of `dist`, then `qsort(restaurants, n)` returns and the `dist` value at
every position is the same as before (entries of equal `dist` may have changed
places). -/
theorem qsort_sorted_input_keeps_dists (restaurants : List RestDist) (n : Nat)
    (hn : n ≤ restaurants.length)
    (hs : (restaurants.take n).Pairwise (fun x y => x.dist ≤ y.dist)) :
    ∃ out, qsort restaurants (n : Int) = some out ∧
      out.map (fun e => e.dist) = restaurants.map (fun e => e.dist) := by
  obtain ⟨out, h1, _, h3, h4, h5⟩ :=
    qsortFuel_spec (n + 1) restaurants n (n : Int) rfl hn (Nat.lt_succ_self n)
  refine ⟨out, ?_, ?_⟩
  · unfold qsort
    rw [Int.toNat_ofNat]
    exact h1
  · have hp : ((out.take n).map (fun e => e.dist)).Perm
        ((restaurants.take n).map (fun e => e.dist)) := h4.map _
    have s1 : ((out.take n).map (fun e => e.dist)).Sorted (· ≤ ·) :=
      (List.pairwise_map.mpr h5)
    have s2 : ((restaurants.take n).map (fun e => e.dist)).Sorted (· ≤ ·) :=
      (List.pairwise_map.mpr hs)
    have heq := List.eq_of_perm_of_sorted hp s1 s2
    rw [← List.take_append_drop n out, ← List.take_append_drop n restaurants,
      List.map_append, List.map_append, heq, h3]

/-- Witness of C12: an array with sorted distances 10, 30, 30, 50. -/
theorem qsort_sorted_input_keeps_dists_witness :
    (4 ≤ ([⟨0, 10⟩, ⟨1, 30⟩, ⟨2, 30⟩, ⟨3, 50⟩] : List RestDist).length ∧
      (([⟨0, 10⟩, ⟨1, 30⟩, ⟨2, 30⟩, ⟨3, 50⟩] : List RestDist).take 4).Pairwise
        (fun x y => x.dist ≤ y.dist)) ∧
    ∃ out, qsort [⟨0, 10⟩, ⟨1, 30⟩, ⟨2, 30⟩, ⟨3, 50⟩] ((4 : Nat) : Int) = some out ∧
      out.map (fun e => e.dist)
        = ([⟨0, 10⟩, ⟨1, 30⟩, ⟨2, 30⟩, ⟨3, 50⟩] : List RestDist).map (fun e => e.dist) :=
  ⟨⟨by decide, by decide⟩,
    qsort_sorted_input_keeps_dists [⟨0, 10⟩, ⟨1, 30⟩, ⟨2, 30⟩, ⟨3, 50⟩] 4 (by decide)
      (by decide)⟩

/-- C15. The sort is not stable.  The array of the three pairwise different
entries with indices 0, 1, 2, all of distance 5, is returned by `qsort` in the
order 0, 2, 1: the entries `x` (index 1) and `y` (index 2) have equal distance
and are different entries, `x` stands before `y` in the input and behind `y`
in the output, and since every entry occurs once, `x, y` is a subsequence of
the input but not of the output, which no stable sort allows. -/
theorem qsort_not_stable :
    ∃ (restaurants out : List RestDist) (x y : RestDist) (i j i2 j2 : Nat),
      qsort restaurants (restaurants.length : Int) = some out ∧
      restaurants = [⟨0, 5⟩, ⟨1, 5⟩, ⟨2, 5⟩] ∧ out = [⟨0, 5⟩, ⟨2, 5⟩, ⟨1, 5⟩] ∧
      restaurants.Nodup ∧ out.Nodup ∧
      restaurants[i]? = some x ∧ restaurants[j]? = some y ∧ i < j ∧ x.dist = y.dist ∧
      x ≠ y ∧ x.index ≠ y.index ∧
      out[i2]? = some x ∧ out[j2]? = some y ∧ j2 < i2 ∧
      List.Sublist [x, y] restaurants ∧ ¬ List.Sublist [x, y] out :=
  ⟨[⟨0, 5⟩, ⟨1, 5⟩, ⟨2, 5⟩], [⟨0, 5⟩, ⟨2, 5⟩, ⟨1, 5⟩], ⟨1, 5⟩, ⟨2, 5⟩, 1, 2, 2, 1,
    by decide, rfl, rfl, by decide, by decide, rfl, rfl, by decide, rfl, by decide, by decide,
    rfl, rfl, by decide, by decide, by decide⟩

/-- C17. For an array of `n ≥ 1` entries and `0 ≤ pi < n`, the call
`pivot(restaurants, n, pi)` returns a position `p` with `0 ≤ p ≤ n − 1`; the
entry at `p` is the entry that was at `pi`, every entry below `p` has
`dist ≤` that of the entry at `p`, every entry above `p` has `dist >` it, and
the entries are a permutation of the input.  The array has exactly `n`
entries and every access outside it is an error, so the call returning means
that no index outside `[0, n)` is read or written. -/
theorem pivot_partitions (restaurants : List RestDist) (pi : Nat)
    (hpi : pi < restaurants.length) :
    ∃ (out : List RestDist) (p : Nat) (x0 : RestDist),
      pivot restaurants (restaurants.length : Int) (pi : Int) = some (out, (p : Int)) ∧
      p ≤ restaurants.length - 1 ∧ restaurants[pi]? = some x0 ∧ out[p]? = some x0 ∧
      (∀ k x, k < p → out[k]? = some x → x.dist ≤ x0.dist) ∧
      (∀ k x, p < k → k < restaurants.length → out[k]? = some x → x0.dist < x.dist) ∧
      out.Perm restaurants ∧ out.length = restaurants.length := by
  obtain ⟨a3, p, h1, h2, h3, h4, _, h6, h7, h8⟩ :=
    pivot_spec restaurants restaurants.length pi restaurants.length pi restaurants[pi]
      rfl rfl hpi (le_refl _) (List.getElem?_eq_getElem hpi)
  exact ⟨a3, p, restaurants[pi], h1, by omega, List.getElem?_eq_getElem hpi, h6, h7, h8, h3,
    h4⟩

/-- Witness of C17: five entries, pivot taken at position 2. -/
theorem pivot_partitions_witness :
    2 < ([⟨0, 50⟩, ⟨1, 10⟩, ⟨2, 30⟩, ⟨3, 5⟩, ⟨4, 30⟩] : List RestDist).length ∧
    ∃ (out : List RestDist) (p : Nat) (x0 : RestDist),
      pivot [⟨0, 50⟩, ⟨1, 10⟩, ⟨2, 30⟩, ⟨3, 5⟩, ⟨4, 30⟩]
        (([⟨0, 50⟩, ⟨1, 10⟩, ⟨2, 30⟩, ⟨3, 5⟩, ⟨4, 30⟩] : List RestDist).length : Int)
        ((2 : Nat) : Int) = some (out, (p : Int)) ∧
      p ≤ ([⟨0, 50⟩, ⟨1, 10⟩, ⟨2, 30⟩, ⟨3, 5⟩, ⟨4, 30⟩] : List RestDist).length - 1 ∧
      ([⟨0, 50⟩, ⟨1, 10⟩, ⟨2, 30⟩, ⟨3, 5⟩, ⟨4, 30⟩] : List RestDist)[2]? = some x0 ∧
      out[p]? = some x0 ∧
      (∀ k x, k < p → out[k]? = some x → x.dist ≤ x0.dist) ∧
      (∀ k x, p < k →
        k < ([⟨0, 50⟩, ⟨1, 10⟩, ⟨2, 30⟩, ⟨3, 5⟩, ⟨4, 30⟩] : List RestDist).length →
        out[k]? = some x → x0.dist < x.dist) ∧
      out.Perm [⟨0, 50⟩, ⟨1, 10⟩, ⟨2, 30⟩, ⟨3, 5⟩, ⟨4, 30⟩] ∧
      out.length = ([⟨0, 50⟩, ⟨1, 10⟩, ⟨2, 30⟩, ⟨3, 5⟩, ⟨4, 30⟩] : List RestDist).length :=
  ⟨by decide, pivot_partitions [⟨0, 50⟩, ⟨1, 10⟩, ⟨2, 30⟩, ⟨3, 5⟩, ⟨4, 30⟩] 2 (by decide)⟩

theorem decBranch_step (n : Int) (fuel : Nat) (a : List RestDist) (lo hi : Int)
    (h : DecBranch n a lo hi) :
    pivotLoop n (fuel + 1) a lo hi = pivotLoop n fuel a lo (hi - 1) := by
  obtain ⟨hle, rhi, rlast, h1, h2, hc⟩ := h
  rw [pivotLoop]
  simp only [hle, if_true, h1, h2, hc]

theorem swapBranch_step (n : Int) (fuel : Nat) (a : List RestDist) (lo hi : Int)
    (h : SwapBranch n a lo hi) (h0 : 0 ≤ lo) (hlast : hi < n - 1) :
    ∃ a1, swap a lo hi = some a1 ∧
      pivotLoop n (fuel + 1) a lo hi = pivotLoop n fuel a1 lo hi ∧ DecBranch n a1 lo hi := by
  obtain ⟨hle, rhi, rlast, rlo, h1, h2, h3, hc1, hc2⟩ := h
  obtain ⟨kl, rfl⟩ := Int.eq_ofNat_of_zero_le h0
  obtain ⟨kh, rfl⟩ := Int.eq_ofNat_of_zero_le (le_trans h0 hle)
  obtain ⟨kn, hkn⟩ := Int.eq_ofNat_of_zero_le (show (0 : Int) ≤ n - 1 by omega)
  rw [getAt_eq a _ kh rfl] at h1
  rw [getAt_eq a _ kn hkn] at h2
  rw [getAt_eq a _ kl rfl] at h3
  have hsw : swap a (kl : Int) (kh : Int) = some ((a.set kl rhi).set kh rlo) :=
    swap_eq a _ _ kl kh rlo rhi rfl rfl h3 h1
  have hget := fun k => getElem?_swapped a kl kh k rlo rhi h3 h1
  refine ⟨(a.set kl rhi).set kh rlo, hsw, ?_, hle, rlo, rlast, ?_, ?_, by omega⟩
  · rw [pivotLoop]
    simp only [hle, if_true, getAt_eq a _ kh rfl, getAt_eq a _ kn hkn, getAt_eq a _ kl rfl,
      h1, h2, h3, hc1, hc2, if_false, hsw]
  · rw [getAt_eq _ _ kh rfl, hget, if_pos rfl]
  · rw [getAt_eq _ _ kn hkn, hget, if_neg (by omega), if_neg (by omega)]
    exact h2

/-- C18. `qsort` terminates on every input.  For an array with at least
`n ≥ 1` entries and any pivot position below `n`, the `while` loop of `pivot`
is left within `2n − 1` evaluations of its condition; an iteration that swaps is followed
by an iteration that decrements `hi`; `pivot` returns `newPi` with
`0 ≤ newPi < n`, so the two recursive calls get the lengths `newPi` and
`n − newPi − 1`, both smaller than `n`; `qsort(restaurants, n)` returns; and
for `n < 1` it returns at once with the array unchanged. -/
theorem qsort_terminates (restaurants : List RestDist) :
    (∀ n pi : Nat, pi < n → n ≤ restaurants.length →
      ∃ a1 r, swap restaurants (pi : Int) ((n : Int) - 1) = some a1 ∧
        pivotLoop (n : Int) (2 * n - 1) a1 0 ((n : Int) - 2) = some r) ∧
    (∀ (n : Int) (fuel : Nat) (a : List RestDist) (lo hi : Int),
      SwapBranch n a lo hi → 0 ≤ lo → hi < n - 1 →
      ∃ a1, swap a lo hi = some a1 ∧
        pivotLoop n (fuel + 2) a lo hi = pivotLoop n (fuel + 1) a1 lo hi ∧
        DecBranch n a1 lo hi ∧
        pivotLoop n (fuel + 1) a1 lo hi = pivotLoop n fuel a1 lo (hi - 1)) ∧
    (∀ n : Nat, 1 ≤ n → n ≤ restaurants.length →
      ∃ a1 newPi, pivot restaurants (n : Int) (Int.tdiv (n : Int) 2) = some (a1, newPi) ∧
        0 ≤ newPi ∧ newPi < (n : Int) ∧
        0 ≤ (n : Int) - (newPi + 1) ∧ (n : Int) - (newPi + 1) < (n : Int)) ∧
    (∀ n : Nat, n ≤ restaurants.length → ∃ out, qsort restaurants (n : Int) = some out) ∧
    (∀ n : Int, n < 1 → qsort restaurants n = some restaurants) := by
  refine ⟨?_, ?_, ?_, ?_, ?_⟩
  · intro n pi hpi hn
    have hplt : pi < restaurants.length := by omega
    have hlast : n - 1 < restaurants.length := by omega
    have hx0 : restaurants[pi]? = some restaurants[pi] := List.getElem?_eq_getElem hplt
    have hy : restaurants[n - 1]? = some restaurants[n - 1] := List.getElem?_eq_getElem hlast
    have hsw := swap_eq restaurants (pi : Int) ((n : Int) - 1) pi (n - 1) restaurants[pi]
      restaurants[n - 1] rfl (by omega) hx0 hy
    have hpv : ((restaurants.set pi restaurants[n - 1]).set (n - 1) restaurants[pi])[n - 1]?
        = some restaurants[pi] := by
      rw [getElem?_swapped restaurants pi (n - 1) (n - 1) _ _ hx0 hy, if_pos rfl]
    obtain ⟨a2, p, hrun, _⟩ :=
      pivotLoop_spec n restaurants[pi] (n - 1) (2 * n - 1)
        ((restaurants.set pi restaurants[n - 1]).set (n - 1) restaurants[pi])
        0 (n - 1) 0 ((n : Int) - 2) rfl (by omega) (by omega) (by omega) (by simpa using hn)
        (by omega) hpv
        (by
          intro k x hk
          omega)
        (by
          intro k x hk hkN
          omega)
    exact ⟨_, _, hsw, hrun⟩
  · intro n fuel a lo hi hs h0 hlast
    obtain ⟨a1, hsw, hstep, hdec⟩ := swapBranch_step n (fuel + 1) a lo hi hs h0 hlast
    exact ⟨a1, hsw, hstep, hdec, decBranch_step n fuel a1 lo hi hdec⟩
  · intro n h1 hn
    have hq : n / 2 < n := by omega
    have hpi : Int.tdiv (n : Int) 2 = ((n / 2 : Nat) : Int) := by
      rw [Int.tdiv_eq_ediv (by omega) (by decide)]
      omega
    have hqlt : n / 2 < restaurants.length := by omega
    obtain ⟨a1, p, hpiv, hpN, _⟩ :=
      pivot_spec restaurants n (n / 2) n (Int.tdiv (n : Int) 2) restaurants[n / 2] rfl hpi
        hq hn (List.getElem?_eq_getElem hqlt)
    exact ⟨a1, p, hpiv, by omega, by omega, by omega, by omega⟩
  · intro n hn
    obtain ⟨out, h1, _⟩ :=
      qsortFuel_spec (n + 1) restaurants n (n : Int) rfl hn (Nat.lt_succ_self n)
    refine ⟨out, ?_⟩
    unfold qsort
    rw [Int.toNat_ofNat]
    exact h1
  · intro n hn
    unfold qsort
    rw [qsortFuel, if_pos hn]

/-- Witness of C18: three entries that all have distance 5. -/
theorem qsort_terminates_witness :
    (∃ a1 r, swap [⟨0, 5⟩, ⟨1, 5⟩, ⟨2, 5⟩] ((1 : Nat) : Int) (((3 : Nat) : Int) - 1) = some a1 ∧
      pivotLoop ((3 : Nat) : Int) (2 * 3 - 1) a1 0 (((3 : Nat) : Int) - 2) = some r) ∧
    (∃ out, qsort [⟨0, 5⟩, ⟨1, 5⟩, ⟨2, 5⟩] ((3 : Nat) : Int) = some out) ∧
    qsort [⟨0, 5⟩, ⟨1, 5⟩, ⟨2, 5⟩] 0 = some [⟨0, 5⟩, ⟨1, 5⟩, ⟨2, 5⟩] :=
  ⟨(qsort_terminates [⟨0, 5⟩, ⟨1, 5⟩, ⟨2, 5⟩]).1 3 1 (by decide) (by decide),
    (qsort_terminates [⟨0, 5⟩, ⟨1, 5⟩, ⟨2, 5⟩]).2.2.2.1 3 (by decide),
    (qsort_terminates [⟨0, 5⟩, ⟨1, 5⟩, ⟨2, 5⟩]).2.2.2.2 0 (by decide)⟩

/-! ### C16 and C19: what the ranking pass stores -/

theorem wrap16_of_range (x : Int) (h0 : -32768 ≤ x) (h1 : x ≤ 32767) : wrap16 x = x := by
  unfold wrap16
  omega

theorem manhattan_exact (a b c d : Int) (ha : 0 ≤ a ∧ a < 2048) (hb : 0 ≤ b ∧ b < 2048)
    (hc : 0 ≤ c ∧ c < 2048) (hd : 0 ≤ d ∧ d < 2048) :
    manhattan (wrap16 a) (wrap16 b) (wrap16 c) (wrap16 d)
      = ((a - c).natAbs : Int) + ((b - d).natAbs : Int) := by
  rw [wrap16_of_range a (by omega) (by omega), wrap16_of_range b (by omega) (by omega),
    wrap16_of_range c (by omega) (by omega), wrap16_of_range d (by omega) (by omega)]
  unfold manhattan
  rw [wrap16_of_range (a - c) (by omega) (by omega),
    wrap16_of_range (b - d) (by omega) (by omega)]
  have h1 : abs (a - c) = ((a - c).natAbs : Int) := by
    unfold abs
    split <;> omega
  have h2 : abs (b - d) = ((b - d).natAbs : Int) := by
    unfold abs
    split <;> omega
  rw [h1, h2, wrap16_of_range ((a - c).natAbs : Int) (by omega) (by omega),
    wrap16_of_range ((b - d).natAbs : Int) (by omega) (by omega),
    wrap16_of_range _ (by omega) (by omega)]

theorem computedDist_congr (lon_to_x lat_to_y : Int → Int) (mv : MapView)
    (card card2 : Sd2Card) (h : card2.blocks = card.blocks) (i : Int) :
    computedDist lon_to_x lat_to_y mv card2 i = computedDist lon_to_x lat_to_y mv card i := by
  simp [computedDist, storedRecord, h]

theorem fillRestaurants_spec (lon_to_x lat_to_y : Int → Int) (mv : MapView) :
    ∀ (k i : Nat) (a : List RestDist) (card : Sd2Card) (cache : RestCache),
      CacheValid card cache → i + k ≤ a.length → i + k ≤ 2 ^ 31 →
      ∃ a2 card2 cache2,
        fillRestaurants lon_to_x lat_to_y mv k (i : Int) a card cache
          = some (a2, card2, cache2) ∧
        card2.blocks = card.blocks ∧ CacheValid card2 cache2 ∧ a2.length = a.length ∧
        ∀ j : Nat, a2[j]? =
          if i ≤ j ∧ j < i + k then
            some ⟨(j : Int), computedDist lon_to_x lat_to_y mv card (j : Int)⟩
          else a[j]? := by
  intro k
  induction k with
  | zero =>
    intro i a card cache hv _ _
    refine ⟨a, card, cache, rfl, rfl, hv, rfl, ?_⟩
    intro j
    rw [if_neg (by omega)]
  | succ k ih =>
    intro i a card cache hv hlen hbig
    obtain ⟨f, hf, hrec, hblocks, hv2, _⟩ :=
      getRestaurant_spec (i : Int) (by omega) (by omega) card cache hv
    have hset := setAt_eq a (i : Int) i
      ⟨(i : Int), computedDist lon_to_x lat_to_y mv card (i : Int)⟩ rfl (by omega)
    obtain ⟨a2, card2, cache2, hrun, hb2, hv3, hlen2, hget⟩ :=
      ih (i + 1) (a.set i ⟨(i : Int), computedDist lon_to_x lat_to_y mv card (i : Int)⟩)
        f.card f.cache hv2 (by rw [List.length_set]; omega) (by omega)
    refine ⟨a2, card2, cache2, ?_, hb2.trans hblocks, hv3, by simpa using hlen2, ?_⟩
    · rw [fillRestaurants]
      simp only [hf, hrec]
      have hd : manhattan (wrap16 (lat_to_y (storedRecord card (i : Int)).lat))
          (wrap16 (lon_to_x (storedRecord card (i : Int)).lon))
          (wrap16 (mv.mapY + mv.cursorY)) (wrap16 (mv.mapX + mv.cursorX))
          = computedDist lon_to_x lat_to_y mv card (i : Int) := rfl
      rw [hd, hset]
      simp only []
      have hcast : ((i : Int) + 1) = ((i + 1 : Nat) : Int) := by omega
      rw [hcast]
      exact hrun
    · intro j
      rw [hget j]
      by_cases hj : i + 1 ≤ j ∧ j < i + 1 + k
      · rw [if_pos hj, if_pos (by omega), computedDist_congr _ _ _ _ _ hblocks]
      · rw [if_neg hj]
        by_cases hji : j = i
        · subst hji
          rw [if_pos (by omega), List.getElem?_set, if_pos rfl, if_pos (by omega)]
        · rw [if_neg (by omega), List.getElem?_set, if_neg (fun e => hji e.symm)]

theorem getAndSortRestaurants_spec (lon_to_x lat_to_y : Int → Int) (N : Nat)
    (hN : N ≤ 2 ^ 31) (mv : MapView) (restaurants : List RestDist)
    (hlen : restaurants.length = N) (card : Sd2Card) (cache : RestCache)
    (hv : CacheValid card cache) :
    ∃ out card2 cache2,
      getAndSortRestaurants lon_to_x lat_to_y N mv restaurants card cache
        = some (out, card2, cache2) ∧
      out.Pairwise (fun x y => x.dist ≤ y.dist) ∧
      out.Perm ((List.range N).map fun (i : Nat) =>
        (⟨(i : Int), computedDist lon_to_x lat_to_y mv card (i : Int)⟩ : RestDist)) := by
  obtain ⟨a1, card1, cache1, hfill, _, _, hlen1, hget⟩ :=
    fillRestaurants_spec lon_to_x lat_to_y mv N 0 restaurants card cache hv (by omega)
      (by omega)
  have ha1 : a1 = (List.range N).map fun (i : Nat) =>
      (⟨(i : Int), computedDist lon_to_x lat_to_y mv card (i : Int)⟩ : RestDist) := by
    apply List.ext_getElem?
    intro j
    rw [hget j, List.getElem?_map]
    by_cases hj : j < N
    · rw [if_pos ⟨by omega, by omega⟩, List.getElem?_range hj]
      rfl
    · rw [if_neg (by omega), List.getElem?_eq_none (by omega),
        List.getElem?_eq_none (by rw [List.length_range]; omega)]
      rfl
  obtain ⟨out, h1, h2, _, h4, h5⟩ :=
    qsortFuel_spec (N + 1) a1 N (N : Int) rfl (by omega) (Nat.lt_succ_self N)
  have hfull : out.take N = out := List.take_of_length_le (by omega)
  have hfull1 : a1.take N = a1 := List.take_of_length_le (by omega)
  rw [hfull] at h4 h5
  rw [hfull1] at h4
  refine ⟨out, card1, cache1, ?_, h5, ha1 ▸ h4⟩
  unfold getAndSortRestaurants
  have hq : qsort a1 (N : Int) = some out := by
    unfold qsort
    rw [Int.toNat_ofNat]
    exact h1
  simp only [Nat.cast_zero] at hfill
  simp only [hfill, hq]

/-- C19. For a catalogue of `NUM_RESTAURANTS` records and an output array of
that size, `getAndSortRestaurants` of restaurant.cpp returns, and its output
consists of the `NUM_RESTAURANTS` pairs (index, distance computed for the
record at that index): every index `0 .. NUM_RESTAURANTS − 1` occurs exactly
once, and the `dist` of every entry is the distance computed for the record at
the entry's own index.  The cache is the start-up sentinel or a true copy of a
block, as after any earlier fetch. -/
theorem getAndSortRestaurants_fills_all (lon_to_x lat_to_y : Int → Int)
    (NUM_RESTAURANTS : Nat) (hN : NUM_RESTAURANTS ≤ 2 ^ 31) (mv : MapView)
    (restaurants : List RestDist) (hlen : restaurants.length = NUM_RESTAURANTS)
    (card : Sd2Card) (cache : RestCache) (hv : CacheValid card cache) :
    ∃ out card2 cache2,
      getAndSortRestaurants lon_to_x lat_to_y NUM_RESTAURANTS mv restaurants card cache
        = some (out, card2, cache2) ∧
      out.length = NUM_RESTAURANTS ∧
      (out.map fun e => e.index).Perm
        ((List.range NUM_RESTAURANTS).map fun (i : Nat) => (i : Int)) ∧
      (∀ e ∈ out, e.dist = computedDist lon_to_x lat_to_y mv card e.index) ∧
      out.Perm ((List.range NUM_RESTAURANTS).map fun (i : Nat) =>
        (⟨(i : Int), computedDist lon_to_x lat_to_y mv card (i : Int)⟩ : RestDist)) := by
  obtain ⟨out, card2, cache2, hrun, _, hperm⟩ :=
    getAndSortRestaurants_spec lon_to_x lat_to_y NUM_RESTAURANTS hN mv restaurants hlen card
      cache hv
  refine ⟨out, card2, cache2, hrun, ?_, ?_, ?_, hperm⟩
  · rw [hperm.length_eq, List.length_map, List.length_range]
  · have h := hperm.map (fun e => e.index)
    rw [List.map_map] at h
    exact h
  · intro e he
    obtain ⟨i, _, hi⟩ := List.mem_map.mp (hperm.subset he)
    rw [← hi]

/-- Witness of C19: the three-record catalogue of the ranking scenario. -/
theorem getAndSortRestaurants_fills_all_witness :
    (3 ≤ 2 ^ 31 ∧ (List.replicate 3 (default : RestDist)).length = 3 ∧
      CacheValid scenarioCard startupCache) ∧
    ∃ out card2 cache2,
      getAndSortRestaurants (fun x => x) (fun y => y) 3 scenarioView
        (List.replicate 3 default) scenarioCard startupCache = some (out, card2, cache2) ∧
      out.length = 3 ∧
      (out.map fun e => e.index).Perm ((List.range 3).map fun (i : Nat) => (i : Int)) ∧
      (∀ e ∈ out,
        e.dist = computedDist (fun x => x) (fun y => y) scenarioView scenarioCard e.index) ∧
      out.Perm ((List.range 3).map fun (i : Nat) =>
        (⟨(i : Int), computedDist (fun x => x) (fun y => y) scenarioView scenarioCard
          (i : Int)⟩ : RestDist)) :=
  ⟨⟨by norm_num, by decide, fun h => absurd rfl h⟩,
    getAndSortRestaurants_fills_all (fun x => x) (fun y => y) 3 (by norm_num) scenarioView
      (List.replicate 3 default) (by decide) scenarioCard startupCache
      (fun h => absurd rfl h)⟩

/-- C16. On a 2048 by 2048 map, for a view that satisfies the viewport
invariant, `getAndSortRestaurants` returns, and for every catalogue index `i`
whose record projects into `[0, 2048) × [0, 2048)`, whatever the other records
are, the output has an entry with index `i`, and every entry with index `i`
has as its distance exactly
`|lon_to_x(lon_i) − (mapX + cursorX)| + |lat_to_y(lat_i) − (mapY + cursorY)|`,
although the call passes `(y, x, y, x)` to `manhattan(x1, y1, x2, y2)`; the two
differences and the sum stay inside the 16-bit range, so nothing wraps. -/
theorem stored_distance_is_manhattan (lon_to_x lat_to_y : Int → Int)
    (NUM_RESTAURANTS : Nat) (hN : NUM_RESTAURANTS ≤ 2 ^ 31) (mv : MapView)
    (hmv : ViewInv 2048 2048 mv)
    (restaurants : List RestDist) (hlen : restaurants.length = NUM_RESTAURANTS)
    (card : Sd2Card) (cache : RestCache) (hv : CacheValid card cache) :
    ∃ out card2 cache2,
      getAndSortRestaurants lon_to_x lat_to_y NUM_RESTAURANTS mv restaurants card cache
        = some (out, card2, cache2) ∧
      ∀ i : Nat, i < NUM_RESTAURANTS →
        0 ≤ lon_to_x (storedRecord card (i : Int)).lon →
        lon_to_x (storedRecord card (i : Int)).lon < 2048 →
        0 ≤ lat_to_y (storedRecord card (i : Int)).lat →
        lat_to_y (storedRecord card (i : Int)).lat < 2048 →
        (∃ e ∈ out, e.index = (i : Int)) ∧
        ∀ e ∈ out, e.index = (i : Int) →
          e.dist
            = ((lon_to_x (storedRecord card (i : Int)).lon
                - (mv.mapX + mv.cursorX)).natAbs : Int)
              + ((lat_to_y (storedRecord card (i : Int)).lat
                - (mv.mapY + mv.cursorY)).natAbs : Int) ∧
          -32768 ≤ lon_to_x (storedRecord card (i : Int)).lon - (mv.mapX + mv.cursorX) ∧
          lon_to_x (storedRecord card (i : Int)).lon - (mv.mapX + mv.cursorX) ≤ 32767 ∧
          -32768 ≤ lat_to_y (storedRecord card (i : Int)).lat - (mv.mapY + mv.cursorY) ∧
          lat_to_y (storedRecord card (i : Int)).lat - (mv.mapY + mv.cursorY) ≤ 32767 ∧
          0 ≤ e.dist ∧ e.dist ≤ 32767 := by
  obtain ⟨out, card2, cache2, hrun, _, hperm⟩ :=
    getAndSortRestaurants_spec lon_to_x lat_to_y NUM_RESTAURANTS hN mv restaurants hlen card
      cache hv
  refine ⟨out, card2, cache2, hrun, ?_⟩
  intro i hiN p1 p2 p3 p4
  simp only [ViewInv, half_cursor] at hmv
  simp only [disp_width_eq, disp_height_eq] at hmv
  obtain ⟨m1, m2, m3, m4, m5, m6, m7, m8⟩ := hmv
  have hd := manhattan_exact (lat_to_y (storedRecord card (i : Int)).lat)
    (lon_to_x (storedRecord card (i : Int)).lon) (mv.mapY + mv.cursorY)
    (mv.mapX + mv.cursorX) ⟨p3, p4⟩ ⟨p1, p2⟩ ⟨by omega, by omega⟩ ⟨by omega, by omega⟩
  constructor
  · refine ⟨⟨(i : Int), computedDist lon_to_x lat_to_y mv card (i : Int)⟩, ?_, rfl⟩
    exact hperm.symm.subset (List.mem_map.mpr ⟨i, List.mem_range.mpr hiN, rfl⟩)
  · intro e he hei
    obtain ⟨j, _, hje⟩ := List.mem_map.mp (hperm.subset he)
    subst hje
    have hji : j = i := by
      have h : ((j : Nat) : Int) = (i : Int) := hei
      omega
    subst hji
    dsimp only
    unfold computedDist
    rw [hd]
    refine ⟨by omega, by omega, by omega, by omega, by omega, by omega, by omega⟩

/-- Witness of C16: a catalogue of two records of which only record 0 is on
the map; the theorem is applied to record 0. -/
theorem stored_distance_is_manhattan_witness :
    (2 ≤ 2 ^ 31 ∧ ViewInv 2048 2048 scenarioView ∧
      (List.replicate 2 (default : RestDist)).length = 2 ∧
      CacheValid mixedCard startupCache ∧
      (0 : Nat) < 2 ∧
      0 ≤ (storedRecord mixedCard ((0 : Nat) : Int)).lon ∧
      (storedRecord mixedCard ((0 : Nat) : Int)).lon < 2048 ∧
      0 ≤ (storedRecord mixedCard ((0 : Nat) : Int)).lat ∧
      (storedRecord mixedCard ((0 : Nat) : Int)).lat < 2048 ∧
      ¬ (storedRecord mixedCard ((1 : Nat) : Int)).lon < 2048) ∧
    ∃ out card2 cache2,
      getAndSortRestaurants (fun x => x) (fun y => y) 2 scenarioView
        (List.replicate 2 default) mixedCard startupCache = some (out, card2, cache2) ∧
      (∃ e ∈ out, e.index = ((0 : Nat) : Int)) ∧
      ∀ e ∈ out, e.index = ((0 : Nat) : Int) → e.dist = 50 := by
  refine ⟨⟨by norm_num, by decide, by decide, fun h => absurd rfl h, by decide, by decide,
    by decide, by decide, by decide, by decide⟩, ?_⟩
  obtain ⟨out, card2, cache2, hrun, hall⟩ :=
    stored_distance_is_manhattan (fun x => x) (fun y => y) 2 (by norm_num) scenarioView
      (by decide) (List.replicate 2 default) (by decide) mixedCard startupCache
      (fun h => absurd rfl h)
  obtain ⟨hex, hdist⟩ := hall 0 (by decide) (by decide) (by decide) (by decide) (by decide)
  refine ⟨out, card2, cache2, hrun, hex, ?_⟩
  intro e he hei
  have h := (hdist e he hei).1
  rw [h]
  decide

/-! ### C11: paging in LIST -/

theorem printPage_fold (page : Int) (l : List Nat) :
    ∀ t : NavState,
      (l.foldl
        (fun (st : NavState) (k : Nat) =>
          if REST_DISP_NUM * page + (k : Int) < st.numOfRestaurants then
            printRestaurant (REST_DISP_NUM * page + (k : Int)) st else st) t).printed
        = t.printed ++ (l.map fun (k : Nat) => REST_DISP_NUM * page + (k : Int)).filter
            (fun i => decide (i < t.numOfRestaurants)) ∧
      (l.foldl
        (fun (st : NavState) (k : Nat) =>
          if REST_DISP_NUM * page + (k : Int) < st.numOfRestaurants then
            printRestaurant (REST_DISP_NUM * page + (k : Int)) st else st) t).numOfRestaurants
        = t.numOfRestaurants := by
  induction l with
  | nil =>
    intro t
    simp
  | cons k rest ih =>
    intro t
    rw [List.foldl_cons]
    by_cases hk : REST_DISP_NUM * page + (k : Int) < t.numOfRestaurants
    · rw [if_pos hk]
      obtain ⟨h1, h2⟩ := ih (printRestaurant (REST_DISP_NUM * page + (k : Int)) t)
      rw [h1, h2]
      simp [printRestaurant, List.filter_cons, hk]
    · rw [if_neg hk]
      obtain ⟨h1, h2⟩ := ih t
      rw [h1, h2]
      simp [List.filter_cons, hk]

theorem printPage_printed (s : NavState) :
    (printPage s).printed = s.printed ++ pagePositions s.pageNum s.numOfRestaurants :=
  (printPage_fold s.pageNum (List.range REST_DISP_NUM.toNat) s).1

theorem mem_pagePositions (page count i : Int) :
    i ∈ pagePositions page count ↔
      REST_DISP_NUM * page ≤ i ∧ i ≤ REST_DISP_NUM * page + (REST_DISP_NUM - 1) ∧ i < count := by
  unfold pagePositions
  have h30 : REST_DISP_NUM = 30 := rfl
  have h30n : REST_DISP_NUM.toNat = 30 := rfl
  rw [h30n, h30]
  simp only [List.mem_filter, List.mem_map, List.mem_range, decide_eq_true_eq]
  constructor
  · rintro ⟨⟨k, hk, rfl⟩, hc⟩
    omega
  · rintro ⟨h1, h2, h3⟩
    exact ⟨⟨(i - 30 * page).toNat, by omega, by omega⟩, h3⟩

theorem turnPage_page (s : NavState) :
    (turnPage s).pageNum =
        (if s.selectedRest = REST_DISP_NUM * (s.pageNum + 1) ∧
            s.selectedRest ≤ s.numOfRestaurants - 1 then s.pageNum + 1
          else if s.selectedRest = REST_DISP_NUM * s.pageNum - 1 ∧ s.selectedRest ≥ 0 ∧
            s.pageNum > 0 then s.pageNum - 1
          else s.pageNum) ∧
      (turnPage s).printed = s.printed ++
        (if s.selectedRest = REST_DISP_NUM * (s.pageNum + 1) ∧
            s.selectedRest ≤ s.numOfRestaurants - 1 then
            pagePositions (s.pageNum + 1) s.numOfRestaurants
          else if s.selectedRest = REST_DISP_NUM * s.pageNum - 1 ∧ s.selectedRest ≥ 0 ∧
            s.pageNum > 0 then pagePositions (s.pageNum - 1) s.numOfRestaurants
          else []) := by
  unfold turnPage
  split_ifs
  · exact ⟨(loadNextPage_same s).2.2.2.1, printPage_printed _⟩
  · exact ⟨(loadPreviousPage_same s).2.2.2.1, printPage_printed _⟩
  · exact ⟨rfl, (List.append_nil _).symm⟩

theorem nudgeSelection_page (v : Int) (s : NavState) :
    (nudgeSelection v s).pageNum = s.pageNum ∧ (nudgeSelection v s).printed = s.printed := by
  unfold nudgeSelection
  split_ifs <;> exact ⟨rfl, rfl⟩

theorem printTwo_printed (c : Prop) [Decidable c] (a b : Int) (t : NavState) :
    (if c then printRestaurant a (printRestaurant b t) else t).printed
      = t.printed ++ (if c then [b, a] else []) := by
  split
  · simp [printRestaurant]
  · simp

/-- The page number and the display log after `moveSelection`, in terms of
the state before it. -/
theorem moveSelection_page (v : Int) (s : NavState) :
    (moveSelection v s).pageNum = (turnPage (nudgeSelection v s)).pageNum ∧
      (moveSelection v s).printed = (turnPage (nudgeSelection v s)).printed ++
        (if s.selectedRest ≠ (moveSelection v s).selectedRest then
          [s.selectedRest, (moveSelection v s).selectedRest] else []) := by
  have hk : SameControl
      { turnPage (nudgeSelection v s) with
        selectedRest := constrain (turnPage (nudgeSelection v s)).selectedRest 0
          ((turnPage (nudgeSelection v s)).numOfRestaurants - 1) }
      (moveSelection v s) := printTwo_same _ _ _ _
  obtain ⟨k1, _, _, k4, _⟩ := hk
  refine ⟨k4, ?_⟩
  rw [k1]
  exact printTwo_printed _ _ _ _

theorem turnPage_printed (s : NavState) :
    (turnPage s).printed = s.printed ++
      (if (turnPage s).pageNum ≠ s.pageNum then
        pagePositions (turnPage s).pageNum s.numOfRestaurants else []) := by
  obtain ⟨hp, hpr⟩ := turnPage_page s
  rw [hpr, hp]
  split_ifs with h1 h2 h3 h4 h5
  · rfl
  · exact absurd (by omega : s.pageNum + 1 = s.pageNum) (by omega)
  · rfl
  · exact absurd (by omega : s.pageNum - 1 = s.pageNum) (by omega)
  · exact absurd rfl h5
  · rfl

theorem scrollingMenu_list_fields (lon_to_x lat_to_y : Int → Int)
    (MAPWIDTH MAPHEIGHT v sel : Int) (r : restaurant) (s : NavState) :
    (scrollingMenu lon_to_x lat_to_y MAPWIDTH MAPHEIGHT v sel r s).selectedRest
        = (moveSelection v s).selectedRest ∧
      (scrollingMenu lon_to_x lat_to_y MAPWIDTH MAPHEIGHT v sel r s).pageNum
        = (moveSelection v s).pageNum ∧
      (scrollingMenu lon_to_x lat_to_y MAPWIDTH MAPHEIGHT v sel r s).printed
        = (moveSelection v s).printed := by
  unfold scrollingMenu
  by_cases hc : sel = LOW
  · simp only [hc, if_true]
    exact ⟨rfl, rfl, rfl⟩
  · simp only [hc, if_false, and_self]

/-- The paging invariant and the display log of one `moveSelection` step. -/
theorem moveSelection_paging (v : Int) (s : NavState)
    (hpage : s.pageNum = s.selectedRest / REST_DISP_NUM) (h0 : 0 ≤ s.selectedRest)
    (h1 : s.selectedRest ≤ s.numOfRestaurants - 1) :
    (moveSelection v s).pageNum = (moveSelection v s).selectedRest / REST_DISP_NUM ∧
      (moveSelection v s).printed = s.printed ++
        (if (moveSelection v s).pageNum ≠ s.pageNum then
          pagePositions (moveSelection v s).pageNum s.numOfRestaurants else []) ++
        (if s.selectedRest ≠ (moveSelection v s).selectedRest then
          [s.selectedRest, (moveSelection v s).selectedRest] else []) := by
  obtain ⟨n1, n2, _⟩ := nudgeSelection_fields v s
  obtain ⟨n3, n4⟩ := nudgeSelection_page v s
  obtain ⟨m1, _⟩ := moveSelection_fields v s
  obtain ⟨m2, m3⟩ := moveSelection_page v s
  obtain ⟨t1, _⟩ := turnPage_page (nudgeSelection v s)
  have t2 := turnPage_printed (nudgeSelection v s)
  rw [n2, n3, n4] at t2
  rw [n1, n2, n3] at t1
  have h30 : REST_DISP_NUM = 30 := rfl
  rw [h30] at t1 hpage ⊢
  constructor
  · rw [m2, t1, m1]
    unfold constrain
    split_ifs <;> omega
  · rw [m3, t2, m2]

/-- C11. Paging with page size `REST_DISP_NUM = 30`.  If before a
`scrollingMenu` step `pageNum = selectedRest / 30` and
`0 ≤ selectedRest ≤ count − 1`, then after the step, for every joystick
reading, `pageNum = selectedRest / 30` again, and the display log grows by the
positions of the new page exactly when `selectedRest / 30` has changed,
followed by the old and the new highlight when the highlight has moved.  The
positions of a page `p` are those from `30p` to `min(30p + 29, count − 1)`.
From 28 the highlight moves to 29 on page 0 without a page repaint; from 29
(with `count > 30`) it moves to 30, the page becomes 1 and the page repaint
covers exactly the positions `30 .. min(59, count − 1)`; from 30 it moves back
to 29 and the page becomes 0. -/
theorem scrollingMenu_paging (lon_to_x lat_to_y : Int → Int)
    (MAPWIDTH MAPHEIGHT v sel : Int) (r : restaurant) (s : NavState)
    (hpage : s.pageNum = s.selectedRest / REST_DISP_NUM) (h0 : 0 ≤ s.selectedRest)
    (h1 : s.selectedRest ≤ s.numOfRestaurants - 1) :
    (scrollingMenu lon_to_x lat_to_y MAPWIDTH MAPHEIGHT v sel r s).pageNum
      = (scrollingMenu lon_to_x lat_to_y MAPWIDTH MAPHEIGHT v sel r s).selectedRest
        / REST_DISP_NUM ∧
    (scrollingMenu lon_to_x lat_to_y MAPWIDTH MAPHEIGHT v sel r s).printed
      = s.printed ++
        (if (scrollingMenu lon_to_x lat_to_y MAPWIDTH MAPHEIGHT v sel r s).selectedRest
            / REST_DISP_NUM ≠ s.selectedRest / REST_DISP_NUM then
          pagePositions
            ((scrollingMenu lon_to_x lat_to_y MAPWIDTH MAPHEIGHT v sel r s).selectedRest
              / REST_DISP_NUM) s.numOfRestaurants
        else []) ++
        (if s.selectedRest
            ≠ (scrollingMenu lon_to_x lat_to_y MAPWIDTH MAPHEIGHT v sel r s).selectedRest then
          [s.selectedRest,
            (scrollingMenu lon_to_x lat_to_y MAPWIDTH MAPHEIGHT v sel r s).selectedRest]
        else []) ∧
    (∀ p i : Int, i ∈ pagePositions p s.numOfRestaurants ↔
      30 * p ≤ i ∧ i ≤ min (30 * p + 29) (s.numOfRestaurants - 1)) ∧
    (s.selectedRest = 28 → 29 < s.numOfRestaurants → v > JOY_CENTRE + JOY_DEADZONE →
      (scrollingMenu lon_to_x lat_to_y MAPWIDTH MAPHEIGHT v sel r s).selectedRest = 29 ∧
      (scrollingMenu lon_to_x lat_to_y MAPWIDTH MAPHEIGHT v sel r s).pageNum = 0 ∧
      (scrollingMenu lon_to_x lat_to_y MAPWIDTH MAPHEIGHT v sel r s).printed
        = s.printed ++ [28, 29]) ∧
    (s.selectedRest = 29 → 30 < s.numOfRestaurants → v > JOY_CENTRE + JOY_DEADZONE →
      (scrollingMenu lon_to_x lat_to_y MAPWIDTH MAPHEIGHT v sel r s).selectedRest = 30 ∧
      (scrollingMenu lon_to_x lat_to_y MAPWIDTH MAPHEIGHT v sel r s).pageNum = 1 ∧
      (scrollingMenu lon_to_x lat_to_y MAPWIDTH MAPHEIGHT v sel r s).printed
        = s.printed ++ pagePositions 1 s.numOfRestaurants ++ [29, 30]) ∧
    (s.selectedRest = 30 → v < JOY_CENTRE - JOY_DEADZONE →
      (scrollingMenu lon_to_x lat_to_y MAPWIDTH MAPHEIGHT v sel r s).selectedRest = 29 ∧
      (scrollingMenu lon_to_x lat_to_y MAPWIDTH MAPHEIGHT v sel r s).pageNum = 0 ∧
      (scrollingMenu lon_to_x lat_to_y MAPWIDTH MAPHEIGHT v sel r s).printed
        = s.printed ++ pagePositions 0 s.numOfRestaurants ++ [30, 29]) := by
  obtain ⟨f1, f2, f3⟩ :=
    scrollingMenu_list_fields lon_to_x lat_to_y MAPWIDTH MAPHEIGHT v sel r s
  obtain ⟨g1, g2⟩ := moveSelection_paging v s hpage h0 h1
  obtain ⟨m1, _⟩ := moveSelection_fields v s
  rw [f1, f2, f3]
  have h30 : REST_DISP_NUM = 30 := rfl
  have hjc : JOY_CENTRE + JOY_DEADZONE = 576 := rfl
  have hjd : JOY_CENTRE - JOY_DEADZONE = 448 := rfl
  rw [hjc, hjd] at m1 ⊢
  refine ⟨g1, ?_, ?_, ?_, ?_, ?_⟩
  · rw [g2, g1, hpage]
  · intro p i
    rw [mem_pagePositions, h30]
    omega
  · intro hs hc hv
    have hsel : (moveSelection v s).selectedRest = 29 := by
      rw [m1, if_pos hv, hs]
      unfold constrain
      split_ifs <;> omega
    have hp : (moveSelection v s).pageNum = 0 := by
      rw [g1, hsel]
      rfl
    have hp0 : s.pageNum = 0 := by
      rw [hpage, hs]
      rfl
    refine ⟨hsel, hp, ?_⟩
    rw [g2, hp, hp0, hsel, hs]
    simp
  · intro hs hc hv
    have hsel : (moveSelection v s).selectedRest = 30 := by
      rw [m1, if_pos hv, hs]
      unfold constrain
      split_ifs <;> omega
    have hp : (moveSelection v s).pageNum = 1 := by
      rw [g1, hsel]
      rfl
    have hp0 : s.pageNum = 0 := by
      rw [hpage, hs]
      rfl
    refine ⟨hsel, hp, ?_⟩
    rw [g2, hp, hp0, hsel, hs]
    simp
  · intro hs hv
    have hsel : (moveSelection v s).selectedRest = 29 := by
      rw [m1, if_neg (by omega), if_pos hv, hs]
      unfold constrain
      split_ifs <;> omega
    have hp : (moveSelection v s).pageNum = 0 := by
      rw [g1, hsel]
      rfl
    have hp0 : s.pageNum = 1 := by
      rw [hpage, hs]
      rfl
    refine ⟨hsel, hp, ?_⟩
    rw [g2, hp, hp0, hsel, hs]
    simp

/-- Witness of C11: 40 candidates, highlight on position 29 of page 0, joystick
pushed down: the page becomes 1 and the positions 30 to 39 are repainted. -/
theorem scrollingMenu_paging_witness :
    (listState.pageNum = listState.selectedRest / REST_DISP_NUM ∧ 0 ≤ listState.selectedRest ∧
      listState.selectedRest ≤ listState.numOfRestaurants - 1) ∧
    (scrollingMenu (fun x => x) (fun y => y) 2048 2048 1023 1 default listState).selectedRest
      = 30 ∧
    (scrollingMenu (fun x => x) (fun y => y) 2048 2048 1023 1 default listState).pageNum = 1 ∧
    (scrollingMenu (fun x => x) (fun y => y) 2048 2048 1023 1 default listState).printed
      = listState.printed ++ pagePositions 1 listState.numOfRestaurants ++ [29, 30] :=
  ⟨by decide,
    (scrollingMenu_paging (fun x => x) (fun y => y) 2048 2048 1023 1 default listState
      (by decide) (by decide) (by decide)).2.2.2.2.1 (by decide) (by decide) (by decide)⟩

/-! ### C13, C14, C20: the rating selector -/

/-- C14. A reading whose pressure is below `MINPRESSURE` or above
`MAXPRESSURE` leaves the whole state as it is, whatever its coordinates; a
call that changes the state therefore has `MINPRESSURE ≤ z ≤ MAXPRESSURE`, and
for such a reading `checkTouch` is the hit test at the mapped point. -/
theorem checkTouch_pressure_gate (touch : TSPoint) (s : NavState) :
    (touch.z < MINPRESSURE ∨ touch.z > MAXPRESSURE → checkTouch touch s = s) ∧
    (checkTouch touch s ≠ s → MINPRESSURE ≤ touch.z ∧ touch.z ≤ MAXPRESSURE) ∧
    (MINPRESSURE ≤ touch.z → touch.z ≤ MAXPRESSURE →
      checkTouch touch s
        = hitTest (wrap16 (map touch.y TS_MINY TS_MAXY (TFT_WIDTH - 1) 0))
            (wrap16 (map touch.x TS_MINX TS_MAXX 0 (TFT_HEIGHT - 1))) s) := by
  have hout : touch.z < MINPRESSURE ∨ touch.z > MAXPRESSURE → checkTouch touch s = s := by
    intro h
    unfold checkTouch
    rw [if_pos h]
  refine ⟨hout, ?_, ?_⟩
  · intro hne
    by_contra hcon
    apply hne
    apply hout
    omega
  · intro h1 h2
    unfold checkTouch
    rw [if_neg (by omega)]

/-- Witness of C14: a reading on button 2 with pressure 5, in the state after
`setup()`. -/
theorem checkTouch_pressure_gate_witness :
    ((5 : Int) < MINPRESSURE ∨ (5 : Int) > MAXPRESSURE) ∧
    checkTouch ⟨500, 150, 5⟩ (setup 2048 2048) = setup 2048 2048 :=
  ⟨by decide, (checkTouch_pressure_gate ⟨500, 150, 5⟩ (setup 2048 2048)).1 (by decide)⟩

/-- C13, the code at a reading that maps to a point above the screen.  The
reading `(x, y, z) = (94, 195, 100)` is accepted and maps to the point
`(290, −17)`, which lies in the circle of no button (it is 181 pixels above the
centre of button 3); in 16-bit arithmetic `6·6 + 181·181 = 32797` wraps to
`−32739 ≤ 400`, and the selection changes from 4 to 3. -/
theorem checkTouch_hit_outside_circle :
    MINPRESSURE ≤ (100 : Int) ∧ (100 : Int) ≤ MAXPRESSURE ∧
    wrap16 (map 195 TS_MINY TS_MAXY (TFT_WIDTH - 1) 0) = 290 ∧
    wrap16 (map 94 TS_MINX TS_MAXX 0 (TFT_HEIGHT - 1)) = -17 ∧
    (setup 2048 2048).buttonCoords = buttonLayout ∧
    (∀ i : Nat, i < 5 → ¬ InButton 290 (-17) i) ∧
    (setup 2048 2048).previousRatingSelection = 4 ∧
    (checkTouch ⟨94, 195, 100⟩ (setup 2048 2048)).previousRatingSelection = 3 := by
  decide

theorem buttonLayout_getD (i : Nat) (hi : i < 5) :
    buttonLayout.getD i (0, 0) = (296, 20 + 48 * (i : Int)) := by
  interval_cases i <;> rfl

theorem guard_yCoord_range (touchY : Int) (hy0 : 0 ≤ touchY) (hy1 : touchY ≤ 239) (i : Nat)
    (hg : buttonGuard touchY i) :
    -171 ≤ 20 + 48 * (i : Int) - touchY ∧ 20 + 48 * (i : Int) - touchY ≤ 171 := by
  unfold buttonGuard at hg
  have h120 : Int.tdiv TFT_HEIGHT 2 = 120 := by decide
  rw [h120] at hg
  omega

theorem square_le_of_range (y b : Int) (h0 : -b ≤ y) (h1 : y ≤ b) : 0 ≤ y * y ∧ y * y ≤ b * b := by
  constructor
  · nlinarith [mul_self_nonneg y]
  · nlinarith [mul_nonneg (sub_nonneg.mpr h1) (by linarith : (0 : Int) ≤ b + y)]

theorem squared_distance_small (touchX touchY : Int) (hx1 : touchX ≤ 319) (hy0 : 0 ≤ touchY)
    (hy1 : touchY ≤ 239) (i : Nat) (hg : buttonGuard touchY i) (hx : touchX ≥ 272) :
    0 ≤ (296 - touchX) * (296 - touchX) ∧ (296 - touchX) * (296 - touchX) ≤ 576 ∧
    0 ≤ (20 + 48 * (i : Int) - touchY) * (20 + 48 * (i : Int) - touchY) ∧
    (20 + 48 * (i : Int) - touchY) * (20 + 48 * (i : Int) - touchY) ≤ 29241 := by
  obtain ⟨g0, g1⟩ := guard_yCoord_range touchY hy0 hy1 i hg
  have hX := square_le_of_range (296 - touchX) 24 (by omega) (by omega)
  have hY := square_le_of_range (20 + 48 * (i : Int) - touchY) 171 (by omega) (by omega)
  exact ⟨hX.1, by omega, hY.1, by omega⟩

theorem touchButton_eq_exact (touchX touchY : Int) (hx0 : 0 ≤ touchX) (hx1 : touchX ≤ 319)
    (hy0 : 0 ≤ touchY) (hy1 : touchY ≤ 239) (i : Nat) (hi : i < 5) (st : NavState)
    (hb : st.buttonCoords = buttonLayout) :
    touchButton touchX touchY i st = touchButtonExact touchX touchY i st := by
  unfold touchButton touchButtonExact
  rw [hb, buttonLayout_getD i hi]
  by_cases hg : buttonGuard touchY i
  · simp only [hg, if_true]
    by_cases hx : touchX ≥ DISP_WIDTH
    · have hx' : touchX ≥ 272 := hx
      obtain ⟨s1, s2, s3, s4⟩ := squared_distance_small touchX touchY hx1 hy0 hy1 i hg hx'
      obtain ⟨g0, g1⟩ := guard_yCoord_range touchY hy0 hy1 i hg
      have hr : wrap16 (buttonRadius * buttonRadius) = buttonRadius * buttonRadius := by decide
      rw [wrap16_of_range (296 - touchX) (by omega) (by omega),
        wrap16_of_range (20 + 48 * (i : Int) - touchY) (by omega) (by omega),
        wrap16_of_range ((296 - touchX) * (296 - touchX)) (by omega) (by omega),
        wrap16_of_range ((20 + 48 * (i : Int) - touchY) * (20 + 48 * (i : Int) - touchY))
          (by omega) (by omega),
        wrap16_of_range _ (by omega) (by omega), hr]
    · rw [if_neg (fun h => hx h.2.2), if_neg (fun h => hx h.2.2)]
  · simp only [hg, if_false]

theorem touchButtonExact_coords (touchX touchY : Int) (i : Nat) (st : NavState) :
    (touchButtonExact touchX touchY i st).buttonCoords = st.buttonCoords := by
  simp only [touchButtonExact]
  split_ifs <;> rfl

theorem hitTest_fold_eq (touchX touchY : Int) (hx0 : 0 ≤ touchX) (hx1 : touchX ≤ 319)
    (hy0 : 0 ≤ touchY) (hy1 : touchY ≤ 239) (l : List Nat) (hl : ∀ i ∈ l, i < 5) :
    ∀ st : NavState, st.buttonCoords = buttonLayout →
      l.foldl (fun (st : NavState) (i : Nat) => touchButton touchX touchY i st) st
        = l.foldl (fun (st : NavState) (i : Nat) => touchButtonExact touchX touchY i st) st := by
  induction l with
  | nil => exact fun _ _ => rfl
  | cons i rest ih =>
    intro st hb
    rw [List.foldl_cons, List.foldl_cons,
      touchButton_eq_exact touchX touchY hx0 hx1 hy0 hy1 i (hl i (List.mem_cons_self _ _)) st hb]
    exact ih (fun j hj => hl j (List.mem_cons_of_mem _ hj)) _
      ((touchButtonExact_coords touchX touchY i st).trans hb)

/-- C20. For a mapped point on the screen, `0 ≤ touchX ≤ TFT_WIDTH − 1` and
`0 ≤ touchY ≤ TFT_HEIGHT − 1`, and the button layout of `beginMode0`, the loop
of `checkTouch` evaluated in 16-bit arithmetic gives the same state, hence the
same selection, as the loop with the circle test in exact integers, whatever
the current selection is; for every button whose half-screen guard passes and
`touchX ≥ DISP_WIDTH` the squared distance is below `2^15`. -/
theorem hitTest_agrees_with_exact (touchX touchY : Int) (hx0 : 0 ≤ touchX)
    (hx1 : touchX ≤ TFT_WIDTH - 1) (hy0 : 0 ≤ touchY) (hy1 : touchY ≤ TFT_HEIGHT - 1)
    (s : NavState) (hb : s.buttonCoords = buttonLayout) :
    hitTest touchX touchY s = hitTestExact touchX touchY s ∧
    ∀ i : Nat, i < 5 → buttonGuard touchY i → touchX ≥ DISP_WIDTH →
      (296 - touchX) * (296 - touchX)
        + (20 + 48 * (i : Int) - touchY) * (20 + 48 * (i : Int) - touchY) < 2 ^ 15 := by
  have hx1' : touchX ≤ 319 := hx1
  have hy1' : touchY ≤ 239 := hy1
  constructor
  · unfold hitTest hitTestExact
    exact hitTest_fold_eq touchX touchY hx0 hx1' hy0 hy1' (List.range 5)
      (fun i hi => List.mem_range.mp hi) s hb
  · intro i _ hg hx
    have hx' : touchX ≥ 272 := hx
    obtain ⟨_, s2, _, s4⟩ := squared_distance_small touchX touchY hx1' hy0 hy1' i hg hx'
    have : (2 : Int) ^ 15 = 32768 := by norm_num
    omega

/-- Witness of C20: the point (308, 108), inside button 2, in the state after
`setup()`. -/
theorem hitTest_agrees_with_exact_witness :
    ((0 : Int) ≤ 308 ∧ (308 : Int) ≤ TFT_WIDTH - 1 ∧ (0 : Int) ≤ 108 ∧
      (108 : Int) ≤ TFT_HEIGHT - 1 ∧ (setup 2048 2048).buttonCoords = buttonLayout) ∧
    hitTest 308 108 (setup 2048 2048) = hitTestExact 308 108 (setup 2048 2048) :=
  ⟨by decide,
    (hitTest_agrees_with_exact 308 108 (by decide) (by decide) (by decide) (by decide)
      (setup 2048 2048) (by decide)).1⟩

/-! ### The hit test on the screen

For mapped points on the screen the selection rule of C13 holds; the rule
fails only through the 16-bit wrap-around at points off the screen. -/

theorem inButton_bounds (touchX touchY : Int) (i : Nat) (h : InButton touchX touchY i) :
    276 ≤ touchX ∧ touchX ≤ 316 ∧ 48 * (i : Int) ≤ touchY ∧ touchY ≤ 40 + 48 * (i : Int) := by
  unfold InButton at h
  have hr : buttonRadius * buttonRadius = 400 := rfl
  rw [hr] at h
  have hX := mul_self_nonneg (296 - touchX)
  have hY := mul_self_nonneg (20 + 48 * (i : Int) - touchY)
  refine ⟨?_, ?_, ?_, ?_⟩ <;> nlinarith

theorem touchButtonExact_selection (touchX touchY : Int) (i : Nat) (hi : i < 5)
    (st : NavState) (hb : st.buttonCoords = buttonLayout) :
    (touchButtonExact touchX touchY i st).previousRatingSelection =
      if InButton touchX touchY i ∧ (i : Int) ≠ st.previousRatingSelection then (i : Int)
      else st.previousRatingSelection := by
  simp only [touchButtonExact]
  rw [hb, buttonLayout_getD i hi]
  have h120 : Int.tdiv TFT_HEIGHT 2 = 120 := by decide
  have hw : DISP_WIDTH = 272 := disp_width_eq
  by_cases hin : InButton touchX touchY i
  · obtain ⟨b1, b2, b3, b4⟩ := inButton_bounds touchX touchY i hin
    have hg : buttonGuard touchY i := by
      unfold buttonGuard
      rw [h120]
      omega
    have hin' := hin
    unfold InButton at hin'
    rw [if_pos hg]
    by_cases hne : (i : Int) = st.previousRatingSelection
    · rw [if_neg (fun h => h.2.1 hne), if_neg (fun h => h.2 hne)]
    · rw [if_pos ⟨hin', hne, by omega⟩, if_pos ⟨hin, hne⟩]
  · have hin' : ¬ ((296 - touchX) * (296 - touchX)
        + (20 + 48 * (i : Int) - touchY) * (20 + 48 * (i : Int) - touchY)
        ≤ buttonRadius * buttonRadius) := hin
    have hr : (if InButton touchX touchY i ∧ (i : Int) ≠ st.previousRatingSelection then
        (i : Int) else st.previousRatingSelection) = st.previousRatingSelection :=
      if_neg (fun h => hin h.1)
    rw [hr]
    split_ifs with h1 h2
    · exact absurd h2.1 hin'
    · rfl
    · rfl

/-- The selection rule of the rating selector with the circle test in exact
integers: a point in the circle of a button other than the current selection
selects that button, and in every other case the selection stays. -/
theorem hitTestExact_selection (touchX touchY : Int) (s : NavState)
    (hb : s.buttonCoords = buttonLayout) :
    (∀ i : Nat, i < 5 → InButton touchX touchY i → (i : Int) ≠ s.previousRatingSelection →
      (hitTestExact touchX touchY s).previousRatingSelection = (i : Int)) ∧
    ((∀ i : Nat, i < 5 → InButton touchX touchY i → (i : Int) = s.previousRatingSelection) →
      (hitTestExact touchX touchY s).previousRatingSelection = s.previousRatingSelection) := by
  have hc := fun i st => touchButtonExact_coords touchX touchY i st
  have hsel := fun i hi st hst => touchButtonExact_selection touchX touchY i hi st hst
  have hrange : List.range 5 = [0, 1, 2, 3, 4] := rfl
  have e0 := hsel 0 (by decide) s hb
  have c0 := (hc 0 s).trans hb
  have e1 := hsel 1 (by decide) _ c0
  have c1 := (hc 1 _).trans c0
  have e2 := hsel 2 (by decide) _ c1
  have c2 := (hc 2 _).trans c1
  have e3 := hsel 3 (by decide) _ c2
  have c3 := (hc 3 _).trans c2
  have e4 := hsel 4 (by decide) _ c3
  have hfold : hitTestExact touchX touchY s
      = touchButtonExact touchX touchY 4 (touchButtonExact touchX touchY 3
          (touchButtonExact touchX touchY 2 (touchButtonExact touchX touchY 1
            (touchButtonExact touchX touchY 0 s)))) := by
    unfold hitTestExact
    rw [hrange]
    rfl
  rw [hfold]
  have b := fun i => inButton_bounds touchX touchY i
  constructor
  · intro i hi hin hne
    have bi := b i hin
    have n : ∀ j : Nat, j < 5 → j ≠ i → ¬ InButton touchX touchY j := by
      intro j _ hji hj
      have bj := b j hj
      omega
    rw [e4, e3, e2, e1, e0]
    interval_cases i
    · simp only [n 1 (by decide) (by decide), n 2 (by decide) (by decide),
        n 3 (by decide) (by decide), n 4 (by decide) (by decide), false_and, if_false]
      rw [if_pos ⟨hin, hne⟩]
    · simp only [n 0 (by decide) (by decide), n 2 (by decide) (by decide),
        n 3 (by decide) (by decide), n 4 (by decide) (by decide), false_and, if_false]
      rw [if_pos ⟨hin, hne⟩]
    · simp only [n 0 (by decide) (by decide), n 1 (by decide) (by decide),
        n 3 (by decide) (by decide), n 4 (by decide) (by decide), false_and, if_false]
      rw [if_pos ⟨hin, hne⟩]
    · simp only [n 0 (by decide) (by decide), n 1 (by decide) (by decide),
        n 2 (by decide) (by decide), n 4 (by decide) (by decide), false_and, if_false]
      rw [if_pos ⟨hin, hne⟩]
    · simp only [n 0 (by decide) (by decide), n 1 (by decide) (by decide),
        n 2 (by decide) (by decide), n 3 (by decide) (by decide), false_and, if_false]
      rw [if_pos ⟨hin, hne⟩]
  · intro hall
    have k0 : ¬ (InButton touchX touchY 0 ∧ ((0 : Nat) : Int) ≠ s.previousRatingSelection) :=
      fun h => h.2 (hall 0 (by decide) h.1)
    rw [if_neg k0] at e0
    have k1 : ¬ (InButton touchX touchY 1 ∧ ((1 : Nat) : Int)
        ≠ (touchButtonExact touchX touchY 0 s).previousRatingSelection) := by
      rw [e0]
      exact fun h => h.2 (hall 1 (by decide) h.1)
    rw [if_neg k1, e0] at e1
    have k2 : ¬ (InButton touchX touchY 2 ∧ ((2 : Nat) : Int)
        ≠ (touchButtonExact touchX touchY 1
          (touchButtonExact touchX touchY 0 s)).previousRatingSelection) := by
      rw [e1]
      exact fun h => h.2 (hall 2 (by decide) h.1)
    rw [if_neg k2, e1] at e2
    have k3 : ¬ (InButton touchX touchY 3 ∧ ((3 : Nat) : Int)
        ≠ (touchButtonExact touchX touchY 2 (touchButtonExact touchX touchY 1
          (touchButtonExact touchX touchY 0 s))).previousRatingSelection) := by
      rw [e2]
      exact fun h => h.2 (hall 3 (by decide) h.1)
    rw [if_neg k3, e2] at e3
    have k4 : ¬ (InButton touchX touchY 4 ∧ ((4 : Nat) : Int)
        ≠ (touchButtonExact touchX touchY 3 (touchButtonExact touchX touchY 2
          (touchButtonExact touchX touchY 1
            (touchButtonExact touchX touchY 0 s)))).previousRatingSelection) := by
      rw [e3]
      exact fun h => h.2 (hall 4 (by decide) h.1)
    rw [if_neg k4, e3] at e4
    exact e4

/-- The selection rule holds for the 16-bit loop of `checkTouch` at every
mapped point on the screen. -/
theorem hitTest_selection_on_screen (touchX touchY : Int) (hx0 : 0 ≤ touchX)
    (hx1 : touchX ≤ 319) (hy0 : 0 ≤ touchY) (hy1 : touchY ≤ 239) (s : NavState)
    (hb : s.buttonCoords = buttonLayout) :
    (∀ i : Nat, i < 5 → InButton touchX touchY i → (i : Int) ≠ s.previousRatingSelection →
      (hitTest touchX touchY s).previousRatingSelection = (i : Int)) ∧
    ((∀ i : Nat, i < 5 → InButton touchX touchY i → (i : Int) = s.previousRatingSelection) →
      (hitTest touchX touchY s).previousRatingSelection = s.previousRatingSelection) := by
  have heq : hitTest touchX touchY s = hitTestExact touchX touchY s := by
    unfold hitTest hitTestExact
    exact hitTest_fold_eq touchX touchY hx0 hx1 hy0 hy1 (List.range 5)
      (fun i hi => List.mem_range.mp hi) s hb
  rw [heq]
  exact hitTestExact_selection touchX touchY s hb

end RestaurantFinder
